import Mathlib

/-
  Shallow embedding of the game engine of the jackos-jeopardy repository
  (src/domain.rs, src/game/{state,rules,scoring,events,actions}.rs).

  Rust machine integers (u32, i32, usize) are modelled as Nat / Int in exact
  arithmetic; the engine never exercises the overflow/saturation boundaries in
  the properties below.  The two sources of randomness (the steal-queue
  shuffle and the weighted random event draw) are abstracted into a `Rand`
  oracle passed to the action handler.  Rust's `&mut GameState` discipline is
  modelled by every handler returning the (possibly mutated) state together
  with the `Result` value, so that partial mutation before an error would be
  observable in the returned state.
-/

namespace Jeopardy

/-- Clue record (src/domain.rs). -/
structure Clue where
  id : Nat
  points : Nat
  question : String
  answer : String
  revealed : Bool
  solved : Bool
deriving Repr, DecidableEq

/-- Category record (src/domain.rs). -/
structure Category where
  name : String
  clues : List Clue
deriving Repr, DecidableEq

/-- Board record (src/domain.rs). -/
structure Board where
  categories : List Category
deriving Repr, DecidableEq

/-- Team record (src/domain.rs); `score` is an i32 in the source, modelled as Int. -/
structure Team where
  id : Nat
  name : String
  score : Int
deriving Repr, DecidableEq

/-- Default team used to model Rust's panic-free indexing at indices that are
proven in bounds. -/
def defaultTeam : Team := ⟨0, "", 0⟩

/-- Surprise variants (src/domain.rs); carried in state but never touched by the handler. -/
inductive Surprise
  | DoubleNext
  | ShuffleOneRound
deriving Repr, DecidableEq

/-- SurpriseState record (src/domain.rs). -/
structure SurpriseState where
  pending : Option Surprise
  expires_after_clues : Nat
deriving Repr, DecidableEq

/-- UiMapping record (src/domain.rs). -/
structure UiMapping where
  logical_to_visual : List (Nat × Nat)
deriving Repr, DecidableEq

/-- UiMapping::identity (src/domain.rs). -/
def UiMapping.identity (num_categories num_rows : Nat) : UiMapping :=
  ⟨(List.range num_categories).flatMap (fun c => (List.range num_rows).map (fun r => (c, r)))⟩

/-- GameEvent variants (src/game/events.rs). -/
inductive GameEvent
  | DoublePoints
  | HardReset
  | ReverseQuestion
  | ScoreSteal
deriving Repr, DecidableEq

/-- StealEventContext record (src/game/events.rs). -/
structure StealEventContext where
  thief_id : Nat
  thief_name : String
  victim_id : Nat
  victim_name : String
  amount : Int
deriving Repr, DecidableEq

/-- EventState record (src/game/events.rs). -/
structure EventState where
  questions_answered : Nat
  active_event : Option GameEvent
  queued_event : Option GameEvent
  event_history : List GameEvent
  animation_playing : Bool
  last_steal : Option StealEventContext
deriving Repr, DecidableEq

/-- EventState::new (src/game/events.rs). -/
def EventState.new : EventState := ⟨0, none, none, [], false, none⟩

/-- EventState::should_trigger_event (src/game/events.rs). -/
def EventState.should_trigger_event (es : EventState) : Bool :=
  decide (0 < es.questions_answered) && decide (es.questions_answered % 4 = 0)
    && es.active_event.isNone && es.queued_event.isNone

/-- EventState::increment_question_count (src/game/events.rs). -/
def EventState.increment_question_count (es : EventState) : EventState :=
  { es with questions_answered := es.questions_answered + 1 }

/-- EventState::activate_event (src/game/events.rs). -/
def EventState.activate_event (es : EventState) (e : GameEvent) : EventState :=
  { es with event_history := es.event_history ++ [e], active_event := some e }

/-- EventState::deactivate_event (src/game/events.rs). -/
def EventState.deactivate_event (es : EventState) : EventState :=
  { es with active_event := none }

/-- EventState::is_event_active (src/game/events.rs). -/
def EventState.is_event_active (es : EventState) (e : GameEvent) : Bool :=
  es.active_event == some e

/-- EventState::queue_event (src/game/events.rs). -/
def EventState.queue_event (es : EventState) (e : GameEvent) : EventState :=
  { es with queued_event := some e }

/-- EventState::set_animation_playing (src/game/events.rs). -/
def EventState.set_animation_playing (es : EventState) (playing : Bool) : EventState :=
  { es with animation_playing := playing }

/-- DoublePointsEvent::calculate_points (src/game/events.rs). -/
def DoublePointsEvent.calculate_points (base_points : Nat) : Nat :=
  base_points * 2

/-- DoublePointsEvent::calculate_penalty (src/game/events.rs). -/
def DoublePointsEvent.calculate_penalty (base_points : Nat) : Int :=
  ((base_points * 2 : Nat) : Int)

/-- ReverseQuestionEvent::apply_to_clue (src/game/events.rs): swap question and answer. -/
def ReverseQuestionEvent.apply_to_clue (c : Clue) : Clue :=
  { c with question := c.answer, answer := c.question }

/-- ReverseQuestionEvent::restore_clue (src/game/events.rs): swapping again restores. -/
def ReverseQuestionEvent.restore_clue (c : Clue) : Clue :=
  { c with question := c.answer, answer := c.question }

/-- Oracle for the two random choices of the engine: the steal-queue shuffle
(rand::seq::SliceRandom::shuffle in GameRules::get_steal_queue) and the
weighted random event draw (EventConfig::get_random_event). -/
structure Rand where
  shuffle : List Nat → List Nat
  pickEvent : GameEvent

/-- EventConfig (src/game/events.rs); the animation duration plays no role in the engine. -/
structure EventConfig where
  trigger_interval : Nat
  enabled_events : List GameEvent

/-- EventConfig::default (src/game/events.rs). -/
def EventConfig.default : EventConfig :=
  ⟨4, [.DoublePoints, .HardReset, .ReverseQuestion, .ScoreSteal]⟩

/-- EventConfig::get_random_event (src/game/events.rs): none iff the enabled
list is empty, otherwise a weighted random draw from the list, abstracted into
the `Rand` oracle (with the default config every event kind is enabled, so any
oracle answer is a possible draw). -/
def EventConfig.get_random_event (cfg : EventConfig) (rng : Rand) : Option GameEvent :=
  if cfg.enabled_events.isEmpty then none else some rng.pickEvent

/-- Helper modelling Rust's `vec.get_mut(i)` followed by an in-place update:
apply `f` at index `i`, leave the list unchanged when `i` is out of bounds. -/
def listModify (f : α → α) : Nat → List α → List α
  | _, [] => []
  | 0, x :: xs => f x :: xs
  | n + 1, x :: xs => x :: listModify f n xs

/-- Helper modelling Rust's `iter().position(p)`. -/
def position (p : α → Bool) : List α → Option Nat
  | [] => none
  | x :: xs => if p x then some 0 else (position p xs).map (· + 1)

/-- ScoringEngine::award_points (src/game/scoring.rs): mutate the first team
with the given id, report whether one was found. -/
def award_points (teams : List Team) (team_id : Nat) (points : Int) :
    List Team × Bool :=
  match teams with
  | [] => ([], false)
  | t :: ts =>
    if t.id == team_id then ({ t with score := t.score + points } :: ts, true)
    else
      let r := award_points ts team_id points
      (t :: r.1, r.2)

/-- ScoringEngine::deduct_points (src/game/scoring.rs). -/
def deduct_points (teams : List Team) (team_id : Nat) (points : Int) :
    List Team × Bool :=
  match teams with
  | [] => ([], false)
  | t :: ts =>
    if t.id == team_id then ({ t with score := t.score - points } :: ts, true)
    else
      let r := deduct_points ts team_id points
      (t :: r.1, r.2)

/-- ScoringEngine::add_team (src/game/scoring.rs): assign max-existing-id + 1
(starting at 1) and append. -/
def add_team (teams : List Team) (name : String) : List Team × Nat :=
  let next_id := ((teams.map Team.id).foldl max 0) + 1
  (teams ++ [⟨next_id, name, 0⟩], next_id)

/-- ScoringEngine::rotate_active_team (src/game/scoring.rs): id of the team
following `current_active` in list order, wrapping; first team's id when
`current_active` is absent; `current_active` itself when the list is empty. -/
def rotate_active_team (teams : List Team) (current_active : Nat) : Nat :=
  match teams with
  | [] => current_active
  | t0 :: _ =>
    match position (fun t => t.id == current_active) teams with
    | some pos => (teams.getD ((pos + 1) % teams.length) t0).id
    | none => t0.id

/-- PlayPhase variants (src/game/state.rs); the VecDeque steal queue is a list. -/
inductive PlayPhase
  | Lobby
  | Selecting (team_id : Nat)
  | Showing (clue : Nat × Nat) (owner_team_id : Nat) (attempt_count : Nat)
      (max_attempts : Nat)
  | Steal (clue : Nat × Nat) (queue : List Nat) (current : Nat)
      (owner_team_id : Nat)
  | Resolved (clue : Nat × Nat) (next_team_id : Nat)
  | Intermission
  | Finished
deriving Repr, DecidableEq

/-- GameState record (src/game/state.rs). -/
structure GameState where
  board : Board
  teams : List Team
  phase : PlayPhase
  active_team : Nat
  surprise : SurpriseState
  ui_map : UiMapping
  event_state : EventState
deriving Repr, DecidableEq

/-- GameState::new (src/game/state.rs). -/
def GameState.new (board : Board) : GameState :=
  let num_rows := ((board.categories.head?).map (fun c => c.clues.length)).getD 0
  { board := board
    teams := []
    phase := .Lobby
    active_team := 0
    surprise := ⟨none, 0⟩
    ui_map := UiMapping.identity board.categories.length num_rows
    event_state := EventState.new }

/-- GameState::get_clue (src/game/state.rs). -/
def GameState.get_clue (s : GameState) (clue : Nat × Nat) : Option Clue :=
  (s.board.categories.get? clue.1).bind (fun cat => cat.clues.get? clue.2)

/-- GameState::is_clue_available (src/game/state.rs): the clue exists and is not solved. -/
def GameState.is_clue_available (s : GameState) (clue : Nat × Nat) : Bool :=
  match s.get_clue clue with
  | some c => !c.solved
  | none => false

/-- Helper applying `f` to the clue at the given coordinates of a board,
mirroring the nested `get_mut` updates of the handler. -/
def modifyClue (b : Board) (clue : Nat × Nat) (f : Clue → Clue) : Board :=
  ⟨listModify (fun cat => { cat with clues := listModify f clue.2 cat.clues })
    clue.1 b.categories⟩

/-- Utility get_question_points (src/game/actions.rs). -/
def get_question_points (s : GameState) (clue : Nat × Nat) : Nat :=
  ((s.get_clue clue).map Clue.points).getD 0

/-- Utility calculate_max_attempts (src/game/actions.rs). -/
def calculate_max_attempts (points : Nat) : Nat :=
  if points > 500 then 2 else 1

/-- GameAction variants (src/game/actions.rs). -/
inductive GameAction
  | AddTeam (name : String)
  | StartGame
  | SelectClue (clue : Nat × Nat) (team_id : Nat)
  | AnswerCorrect (clue : Nat × Nat) (team_id : Nat)
  | AnswerIncorrect (clue : Nat × Nat) (team_id : Nat)
  | StealAttempt (clue : Nat × Nat) (team_id : Nat) (correct : Bool)
  | CloseClue (clue : Nat × Nat) (next_team_id : Nat)
  | QueueEvent (event : GameEvent)
  | PlayEventAnimation (event : GameEvent)
  | TriggerEvent (event : GameEvent)
  | AcknowledgeEvent
  | ResolveEvent
  | ReturnToConfig
  | ManualPointsAdjustment (team_id : Nat) (new_points : Int)
deriving Repr, DecidableEq

/-- FlashType variants (src/game/actions.rs). -/
inductive FlashType
  | Correct
  | Incorrect
deriving Repr, DecidableEq

/-- EventAnimationType variants (src/game/events.rs). -/
inductive EventAnimationType
  | DoublePointsMultiplication
  | HardResetGlitch
  | ReverseQuestionFlip
  | ScoreStealHeist
deriving Repr, DecidableEq

/-- GameEffect variants (src/game/actions.rs). -/
inductive GameEffect
  | ScoreChanged (team_id : Nat) (delta : Int)
  | ClueRevealed (clue : Nat × Nat)
  | ClueSolved (clue : Nat × Nat)
  | FlashEffect (effect_type : FlashType)
  | EventTriggered (event : GameEvent)
  | EventQueued (event : GameEvent)
  | EventAnimation (animation_type : EventAnimationType)
  | ScoreReset
  | DoublePointsActivated
  | ReverseQuestionActivated
  | ScoreStealApplied (context : StealEventContext)
  | ManualScoreAdjustment (team_id : Nat) (old_score : Int) (new_score : Int)
deriving Repr, DecidableEq

/-- GameActionResult variants (src/game/actions.rs). -/
inductive GameActionResult
  | Success (new_phase : PlayPhase)
  | StateChanged (new_phase : PlayPhase) (effects : List GameEffect)
deriving Repr, DecidableEq

/-- EventError variants (src/game/events.rs). -/
inductive EventError
  | NoEventAvailable
  | EventAlreadyActive
  | InvalidEventState
  | AnimationFailed (reason : String)
deriving Repr, DecidableEq

/-- GameError variants (src/game/actions.rs). -/
inductive GameError
  | InvalidAction (action : String) (reason : String)
  | EventErr (err : EventError)
deriving Repr, DecidableEq

/-- GameRules::can_select_clue (src/game/rules.rs). -/
def can_select_clue (s : GameState) (clue : Nat × Nat) : Bool :=
  (match s.phase with
   | .Selecting _ => true
   | _ => false) && s.is_clue_available clue

/-- GameRules::can_start_game (src/game/rules.rs). -/
def can_start_game (s : GameState) : Bool :=
  (match s.phase with
   | .Lobby => true
   | _ => false) && !s.teams.isEmpty

/-- GameRules::can_add_team (src/game/rules.rs). -/
def can_add_team (s : GameState) : Bool :=
  match s.phase with
  | .Lobby => true
  | _ => false

/-- GameRules::get_steal_queue (src/game/rules.rs): every other team id in a
random permutation, the shuffle abstracted into the `Rand` oracle. -/
def get_steal_queue (rng : Rand) (s : GameState) (excluding_team : Nat) :
    List Nat :=
  rng.shuffle ((s.teams.filter (fun t => t.id != excluding_team)).map Team.id)

/-- GameRules::validate_team_action (src/game/rules.rs).  The source match
omits the event and manual-adjustment variants (the handler never routes them
here); they answer false in the model. -/
def validate_team_action (s : GameState) (team_id : Nat) (a : GameAction) :
    Bool :=
  if (s.teams.find? (fun t => t.id == team_id)).isNone then false
  else
    match a with
    | .AddTeam _ => can_add_team s
    | .StartGame => can_start_game s
    | .SelectClue clue action_team_id =>
      match s.phase with
      | .Selecting active_team => action_team_id == active_team && can_select_clue s clue
      | _ => false
    | .AnswerCorrect _ action_team_id
    | .AnswerIncorrect _ action_team_id =>
      match s.phase with
      | .Showing _ owner_team_id _ _ => action_team_id == owner_team_id
      | _ => false
    | .StealAttempt _ action_team_id _ =>
      match s.phase with
      | .Steal _ _ current _ => action_team_id == current
      | _ => false
    | .CloseClue _ _ =>
      match s.phase with
      | .Resolved _ _ => true
      | _ => false
    | .ReturnToConfig => true
    | _ => false

/-- GameRules::is_action_valid (src/game/rules.rs); same omission note as
validate_team_action. -/
def is_action_valid (s : GameState) (a : GameAction) : Bool :=
  match a with
  | .AddTeam _ => can_add_team s
  | .StartGame => can_start_game s
  | .SelectClue clue team_id =>
    match s.phase with
    | .Selecting active_team => team_id == active_team && can_select_clue s clue
    | _ => false
  | .AnswerCorrect _ team_id
  | .AnswerIncorrect _ team_id =>
    match s.phase with
    | .Showing _ owner_team_id _ _ => team_id == owner_team_id
    | _ => false
  | .StealAttempt _ team_id _ =>
    match s.phase with
    | .Steal _ _ current _ => team_id == current
    | _ => false
  | .CloseClue _ _ =>
    match s.phase with
    | .Resolved _ _ => true
    | _ => false
  | .ReturnToConfig => true
  | _ => false

/-- GameActionHandler::handle_add_team (src/game/actions.rs). -/
def handle_add_team (s : GameState) (name : String) :
    GameState × Except GameError GameActionResult :=
  if !can_add_team s then
    (s, .error (.InvalidAction "AddTeam" "Can only add teams in lobby phase"))
  else
    let r := add_team s.teams name
    let s1 := { s with teams := r.1 }
    let s2 :=
      if (match s1.phase with | .Lobby => true | _ => false) && s1.active_team == 0 then
        { s1 with active_team := r.2 }
      else s1
    (s2, .ok (.Success s2.phase))

/-- GameActionHandler::handle_start_game (src/game/actions.rs). -/
def handle_start_game (s : GameState) :
    GameState × Except GameError GameActionResult :=
  if !can_start_game s then
    (s, .error (.InvalidAction "StartGame"
      "Game can only be started from lobby with at least one team"))
  else
    let first_team_id := (s.teams.headD defaultTeam).id
    let new_phase := PlayPhase.Selecting first_team_id
    ({ s with active_team := first_team_id, phase := new_phase },
     .ok (.Success new_phase))

/-- GameActionHandler::handle_select_clue (src/game/actions.rs). -/
def handle_select_clue (s : GameState) (clue : Nat × Nat) (team_id : Nat) :
    GameState × Except GameError GameActionResult :=
  if !validate_team_action s team_id (.SelectClue clue team_id) then
    (s, .error (.InvalidAction "SelectClue" "Invalid clue selection or wrong team"))
  else
    let sw :=
      if s.event_state.is_event_active .ReverseQuestion then
        match s.get_clue clue with
        | some _ =>
          ({ s with board := modifyClue s.board clue ReverseQuestionEvent.apply_to_clue },
           [GameEffect.ReverseQuestionActivated])
        | none => (s, [])
      else (s, [])
    let points := get_question_points sw.1 clue
    let max_attempts := calculate_max_attempts points
    let new_phase := PlayPhase.Showing clue team_id 1 max_attempts
    ({ sw.1 with phase := new_phase },
     .ok (if sw.2.isEmpty then .Success new_phase else .StateChanged new_phase sw.2))

/-- Shared body of the (verbatim duplicated) clue-resolution block of
handle_answer_correct and the correct branch of handle_steal_attempt
(src/game/actions.rs): reveal and solve the clue, award points (doubled while
Double-Points is active), then deactivate Double-Points / Reverse-Question. -/
def resolve_correct_clue (s : GameState) (clue : Nat × Nat) (team_id : Nat) :
    GameState × List GameEffect :=
  match s.get_clue clue with
  | none => (s, [])
  | some c =>
    let s1 := { s with
      board := modifyClue s.board clue
        (fun cl => { cl with revealed := true, solved := true }) }
    let effects := [GameEffect.ClueRevealed clue, GameEffect.ClueSolved clue]
    let points : Int :=
      if s1.event_state.is_event_active .DoublePoints then
        ((DoublePointsEvent.calculate_points c.points : Nat) : Int)
      else (c.points : Int)
    let ar := award_points s1.teams team_id points
    let s2 := { s1 with teams := ar.1 }
    let effects2 :=
      if ar.2 then effects ++ [GameEffect.ScoreChanged team_id points] else effects
    let s3 :=
      if s2.event_state.is_event_active .DoublePoints then
        { s2 with event_state := s2.event_state.deactivate_event }
      else s2
    let s4 :=
      if s3.event_state.is_event_active .ReverseQuestion then
        { s3 with board := modifyClue s3.board clue ReverseQuestionEvent.restore_clue,
                  event_state := s3.event_state.deactivate_event }
      else s3
    (s4, effects2)

/-- GameActionHandler::handle_answer_correct (src/game/actions.rs). -/
def handle_answer_correct (s : GameState) (clue : Nat × Nat) (team_id : Nat) :
    GameState × Except GameError GameActionResult :=
  if !validate_team_action s team_id (.AnswerCorrect clue team_id) then
    (s, .error (.InvalidAction "AnswerCorrect"
      "Can only answer in showing phase with correct team"))
  else
    let m := resolve_correct_clue s clue team_id
    let effects := m.2 ++ [GameEffect.FlashEffect .Correct]
    let next_team_id := rotate_active_team m.1.teams m.1.active_team
    let new_phase := PlayPhase.Resolved clue next_team_id
    ({ m.1 with active_team := next_team_id, phase := new_phase },
     .ok (.StateChanged new_phase effects))

/-- GameActionHandler::handle_final_attempt_incorrect (src/game/actions.rs). -/
def handle_final_attempt_incorrect (rng : Rand) (s : GameState)
    (clue : Nat × Nat) (team_id : Nat) (effects : List GameEffect) :
    GameState × Except GameError GameActionResult :=
  let d :=
    match s.get_clue clue with
    | none => (s, effects)
    | some c =>
      let penalty : Int :=
        if s.event_state.is_event_active .DoublePoints then
          DoublePointsEvent.calculate_penalty c.points
        else (c.points : Int)
      let dr := deduct_points s.teams team_id penalty
      ({ s with teams := dr.1 },
       if dr.2 then effects ++ [GameEffect.ScoreChanged team_id (-penalty)] else effects)
  let q := get_steal_queue rng d.1 team_id
  let current := q.headD team_id
  let queue := q.tail
  let new_phase := PlayPhase.Steal clue queue current team_id
  ({ d.1 with phase := new_phase }, .ok (.StateChanged new_phase d.2))

/-- GameActionHandler::handle_answer_incorrect (src/game/actions.rs). -/
def handle_answer_incorrect (rng : Rand) (s : GameState) (clue : Nat × Nat)
    (team_id : Nat) : GameState × Except GameError GameActionResult :=
  if !validate_team_action s team_id (.AnswerIncorrect clue team_id) then
    (s, .error (.InvalidAction "AnswerIncorrect"
      "Can only answer in showing phase with correct team"))
  else
    match s.phase with
    | .Showing _ _ attempt_count max_attempts =>
      let effects := [GameEffect.FlashEffect .Incorrect]
      if attempt_count < max_attempts then
        let new_phase := PlayPhase.Showing clue team_id (attempt_count + 1) max_attempts
        ({ s with phase := new_phase }, .ok (.StateChanged new_phase effects))
      else
        handle_final_attempt_incorrect rng s clue team_id effects
    | _ =>
      (s, .error (.InvalidAction "AnswerIncorrect"
        "Can only answer incorrect in showing phase"))

/-- Body of the empty-queue branch of handle_steal_attempt
(src/game/actions.rs): no contender left, restore a swapped reverse-question
clue and mark the clue solved without awarding points.  Note the source sets
only the solved flag here, not the revealed flag. -/
def exhaust_steal_clue (s : GameState) (clue : Nat × Nat)
    (effects : List GameEffect) : GameState × List GameEffect :=
  match s.get_clue clue with
  | none => (s, effects)
  | some _ =>
    let r :=
      if s.event_state.is_event_active .ReverseQuestion then
        { s with
          board := modifyClue s.board clue ReverseQuestionEvent.restore_clue,
          event_state := s.event_state.deactivate_event }
      else s
    ({ r with board := modifyClue r.board clue (fun cl => { cl with solved := true }) },
     effects ++ [GameEffect.ClueSolved clue])

/-- GameActionHandler::handle_steal_attempt (src/game/actions.rs). -/
def handle_steal_attempt (s : GameState) (clue : Nat × Nat) (team_id : Nat)
    (correct : Bool) : GameState × Except GameError GameActionResult :=
  if !validate_team_action s team_id (.StealAttempt clue team_id correct) then
    (s, .error (.InvalidAction "StealAttempt" "Invalid steal attempt or wrong team"))
  else
    match s.phase with
    | .Steal phase_clue queue _current owner_team_id =>
      if correct then
        let m := resolve_correct_clue s clue team_id
        let effects := m.2 ++ [GameEffect.FlashEffect .Correct]
        let next_team_id := rotate_active_team m.1.teams m.1.active_team
        let new_phase := PlayPhase.Resolved clue next_team_id
        ({ m.1 with active_team := next_team_id, phase := new_phase },
         .ok (.StateChanged new_phase effects))
      else
        let effects := [GameEffect.FlashEffect .Incorrect]
        match queue with
        | next_team :: rest =>
          let new_phase := PlayPhase.Steal phase_clue rest next_team owner_team_id
          ({ s with phase := new_phase }, .ok (.StateChanged new_phase effects))
        | [] =>
          let m := exhaust_steal_clue s clue effects
          let next_team_id := rotate_active_team m.1.teams m.1.active_team
          let new_phase := PlayPhase.Resolved clue next_team_id
          ({ m.1 with active_team := next_team_id, phase := new_phase },
           .ok (.StateChanged new_phase m.2))
    | _ =>
      (s, .error (.InvalidAction "StealAttempt" "Can only steal in steal phase"))

/-- Loop body of lowest_and_highest_team_indices (src/game/actions.rs): walk
the index list keeping the first index of a strictly smaller score and the
first index of a strictly larger score. -/
def lh_go (teams : List Team) : List Nat → Nat × Nat → Nat × Nat
  | [], acc => acc
  | i :: rest, acc =>
    let min_i :=
      if (teams.getD i defaultTeam).score < (teams.getD acc.1 defaultTeam).score then i
      else acc.1
    let max_i :=
      if (teams.getD i defaultTeam).score > (teams.getD acc.2 defaultTeam).score then i
      else acc.2
    lh_go teams rest (min_i, max_i)

/-- lowest_and_highest_team_indices (src/game/actions.rs): indices of the
lowest-scoring (thief) and highest-scoring (victim) teams; none when fewer
than 2 teams or all scores equal. -/
def lowest_and_highest_team_indices (teams : List Team) : Option (Nat × Nat) :=
  if teams.length < 2 then none
  else
    let mm := lh_go teams (List.range teams.length) (0, 0)
    if mm.1 == mm.2 then none else some mm

/-- Shared body of the (verbatim duplicated) Score-Steal application block of
handle_close_clue and handle_trigger_event (src/game/actions.rs).  The source
computes the amount as `((victim.score as f32) * 0.20).floor() as i32` and the
score moves with saturating i32 arithmetic; the model uses exact integer
arithmetic, `Int.fdiv victim.score 5` being the exact floor of 20% of the
score. -/
def score_steal_apply (s : GameState) : GameState × List GameEffect :=
  match lowest_and_highest_team_indices s.teams with
  | none => (s, [])
  | some (thief_idx, victim_idx) =>
    let thief := s.teams.getD thief_idx defaultTeam
    let victim := s.teams.getD victim_idx defaultTeam
    let amount := max (Int.fdiv victim.score 5) 0
    let teams1 := listModify (fun t => { t with score := t.score - amount }) victim_idx s.teams
    let teams2 := listModify (fun t => { t with score := t.score + amount }) thief_idx teams1
    let ctx : StealEventContext := ⟨thief.id, thief.name, victim.id, victim.name, amount⟩
    ({ s with teams := teams2,
              event_state := { s.event_state with last_steal := some ctx } },
     [GameEffect.ScoreChanged victim.id (-amount), GameEffect.ScoreChanged thief.id amount,
      GameEffect.ScoreStealApplied ctx])

/-- Mapping from an event to its animation kind, as duplicated in
handle_play_event_animation and handle_trigger_event (src/game/actions.rs). -/
def event_animation_type : GameEvent → EventAnimationType
  | .DoublePoints => .DoublePointsMultiplication
  | .HardReset => .HardResetGlitch
  | .ReverseQuestion => .ReverseQuestionFlip
  | .ScoreSteal => .ScoreStealHeist

/-- GameActionHandler::handle_close_clue (src/game/actions.rs). -/
def handle_close_clue (rng : Rand) (s : GameState) (clue : Nat × Nat)
    (next_team_id : Nat) : GameState × Except GameError GameActionResult :=
  if !is_action_valid s (.CloseClue clue next_team_id) then
    (s, .error (.InvalidAction "CloseClue" "Can only close clue in resolved phase"))
  else
    let s1 := { s with event_state := s.event_state.increment_question_count }
    let tr :=
      if s1.event_state.should_trigger_event then
        match EventConfig.default.get_random_event rng with
        | some event =>
          let sq := { s1 with event_state := s1.event_state.queue_event event }
          let ap :=
            if event == .HardReset then
              ({ sq with teams := sq.teams.map (fun t => { t with score := 0 }) },
               [GameEffect.ScoreReset])
            else if event == .ScoreSteal then
              score_steal_apply sq
            else (sq, [])
          (ap.1, ap.2 ++ [GameEffect.EventQueued event])
        | none => (s1, [])
      else (s1, [])
    let new_phase := PlayPhase.Selecting next_team_id
    ({ tr.1 with phase := new_phase },
     .ok (if tr.2.isEmpty then .Success new_phase else .StateChanged new_phase tr.2))

/-- GameActionHandler::handle_queue_event (src/game/actions.rs). -/
def handle_queue_event (s : GameState) (event : GameEvent) :
    GameState × Except GameError GameActionResult :=
  let s1 := { s with event_state := s.event_state.queue_event event }
  let base := [GameEffect.EventQueued event]
  let r :=
    if event == .HardReset then
      ({ s1 with teams := s1.teams.map (fun t => { t with score := 0 }) },
       base ++ [GameEffect.ScoreReset])
    else (s1, base)
  (r.1, .ok (.StateChanged r.1.phase r.2))

/-- GameActionHandler::handle_play_event_animation (src/game/actions.rs):
mark the animation as playing and activate the signalled event now, except for
Hard-Reset and Score-Steal. -/
def handle_play_event_animation (s : GameState) (event : GameEvent) :
    GameState × Except GameError GameActionResult :=
  let s1 := { s with event_state := s.event_state.set_animation_playing true }
  let s2 :=
    if !(event == .HardReset || event == .ScoreSteal) then
      { s1 with event_state := s1.event_state.activate_event event }
    else s1
  (s2, .ok (.StateChanged s2.phase
    [GameEffect.EventAnimation (event_animation_type event)]))

/-- GameActionHandler::handle_trigger_event (src/game/actions.rs). -/
def handle_trigger_event (s : GameState) (event : GameEvent) :
    GameState × Except GameError GameActionResult :=
  if s.event_state.active_event.isSome then
    (s, .error (.EventErr .EventAlreadyActive))
  else
    let s1 := { s with event_state := s.event_state.activate_event event }
    let base := [GameEffect.EventTriggered event,
      GameEffect.EventAnimation (event_animation_type event)]
    let r : GameState × List GameEffect :=
      match event with
      | .HardReset =>
        ({ s1 with teams := s1.teams.map (fun t => { t with score := 0 }) },
         base ++ [GameEffect.ScoreReset])
      | .DoublePoints => (s1, base ++ [GameEffect.DoublePointsActivated])
      | .ReverseQuestion => (s1, base ++ [GameEffect.ReverseQuestionActivated])
      | .ScoreSteal =>
        let ap := score_steal_apply s1
        (ap.1, base ++ ap.2)
    (r.1, .ok (.StateChanged r.1.phase r.2))

/-- GameActionHandler::handle_acknowledge_event (src/game/actions.rs). -/
def handle_acknowledge_event (s : GameState) :
    GameState × Except GameError GameActionResult :=
  (s, .ok (.Success s.phase))

/-- GameActionHandler::handle_resolve_event (src/game/actions.rs). -/
def handle_resolve_event (s : GameState) :
    GameState × Except GameError GameActionResult :=
  ({ s with event_state := s.event_state.deactivate_event }, .ok (.Success s.phase))

/-- GameActionHandler::handle_return_to_config (src/game/actions.rs): reports
Finished without touching the state (handled at the app level). -/
def handle_return_to_config (s : GameState) :
    GameState × Except GameError GameActionResult :=
  (s, .ok (.Success .Finished))

/-- Helper modelling the in-place score overwrite of
handle_manual_points_adjustment: set the score of the first team with the id. -/
def set_team_points (teams : List Team) (team_id : Nat) (new_points : Int) :
    List Team :=
  match teams with
  | [] => []
  | t :: ts =>
    if t.id == team_id then { t with score := new_points } :: ts
    else t :: set_team_points ts team_id new_points

/-- GameActionHandler::handle_manual_points_adjustment (src/game/actions.rs). -/
def handle_manual_points_adjustment (s : GameState) (team_id : Nat)
    (new_points : Int) : GameState × Except GameError GameActionResult :=
  match s.teams.find? (fun t => t.id == team_id) with
  | some team =>
    ({ s with teams := set_team_points s.teams team_id new_points },
     .ok (.StateChanged s.phase
       [GameEffect.ManualScoreAdjustment team_id team.score new_points]))
  | none =>
    (s, .error (.InvalidAction "ManualPointsAdjustment"
      ("Team with ID " ++ toString team_id ++ " not found")))

/-- GameActionHandler::handle (src/game/actions.rs): the single action entry
point.  The mutable reference of the source is modelled by returning the
(possibly mutated) state next to the Result. -/
def handle (rng : Rand) (s : GameState) (a : GameAction) :
    GameState × Except GameError GameActionResult :=
  match a with
  | .AddTeam name => handle_add_team s name
  | .StartGame => handle_start_game s
  | .SelectClue clue team_id => handle_select_clue s clue team_id
  | .AnswerCorrect clue team_id => handle_answer_correct s clue team_id
  | .AnswerIncorrect clue team_id => handle_answer_incorrect rng s clue team_id
  | .StealAttempt clue team_id correct => handle_steal_attempt s clue team_id correct
  | .CloseClue clue next_team_id => handle_close_clue rng s clue next_team_id
  | .QueueEvent event => handle_queue_event s event
  | .PlayEventAnimation event => handle_play_event_animation s event
  | .TriggerEvent event => handle_trigger_event s event
  | .AcknowledgeEvent => handle_acknowledge_event s
  | .ResolveEvent => handle_resolve_event s
  | .ReturnToConfig => handle_return_to_config s
  | .ManualPointsAdjustment team_id new_points =>
    handle_manual_points_adjustment s team_id new_points


/-- Board-level clue lookup; GameState::get_clue is this applied to the
state's board. -/
def Board.getClue (b : Board) (clue : Nat × Nat) : Option Clue :=
  (b.categories.get? clue.1).bind (fun cat => cat.clues.get? clue.2)

/-- Solved flag of the clue at the given coordinates (false when absent). -/
def Board.clueSolved (b : Board) (clue : Nat × Nat) : Bool :=
  ((b.getClue clue).map Clue.solved).getD false

/-- Revealed flag of the clue at the given coordinates (false when absent). -/
def Board.clueRevealed (b : Board) (clue : Nat × Nat) : Bool :=
  ((b.getClue clue).map Clue.revealed).getD false

/-- Fold of the action handler over a list of submitted actions, each with its
own randomness oracle. -/
def runActions (acts : List (Rand × GameAction)) (s : GameState) : GameState :=
  match acts with
  | [] => s
  | (rng, a) :: rest => runActions rest (handle rng s a).1

/-- Game states reachable from a fresh game through the action handler. -/
inductive Reachable : GameState → Prop
  | init : ∀ b : Board, Reachable (GameState.new b)
  | step : ∀ (rng : Rand) (a : GameAction) (s : GameState),
      Reachable s → Reachable (handle rng s a).1

/-! Concrete fixtures used by witnesses and counterexamples: a 1-category
board with a 200-point and an 800-point clue, a deterministic randomness
oracle, and the states along a short play trace. -/

def wBoard : Board :=
  ⟨[⟨"Cat", [⟨1, 200, "Q1", "A1", false, false⟩, ⟨2, 800, "Q2", "A2", false, false⟩]⟩]⟩

def wRng : Rand := ⟨id, GameEvent.DoublePoints⟩

def wLobby : GameState := GameState.new wBoard

def wTeam1 : GameState := (handle wRng wLobby (.AddTeam "A")).1

def wTeam2 : GameState := (handle wRng wTeam1 (.AddTeam "B")).1

def wStarted : GameState := (handle wRng wTeam2 .StartGame).1

def wShowing : GameState := (handle wRng wStarted (.SelectClue (0, 0) 1)).1

def wShowing800 : GameState := (handle wRng wStarted (.SelectClue (0, 1) 1)).1

def wShowing800b : GameState := (handle wRng wShowing800 (.AnswerIncorrect (0, 1) 1)).1

def wSteal : GameState := (handle wRng wShowing (.AnswerIncorrect (0, 0) 1)).1

def wExhausted : GameState := (handle wRng wSteal (.StealAttempt (0, 0) 2 false)).1

def wDpActive : GameState := (handle wRng wStarted (.TriggerEvent .DoublePoints)).1

def wDpShowing : GameState := (handle wRng wDpActive (.SelectClue (0, 0) 1)).1

def wDpSteal : GameState := (handle wRng wDpShowing (.AnswerIncorrect (0, 0) 1)).1

def wDpResolved : GameState := (handle wRng wDpSteal (.StealAttempt (0, 0) 2 false)).1

def wSsState : GameState :=
  { wStarted with teams := [⟨1, "Low", 200⟩, ⟨2, "High", 1000⟩] }

def wSsEqState : GameState :=
  { wStarted with teams := [⟨1, "A", 500⟩, ⟨2, "B", 500⟩] }

def wSsNegState : GameState :=
  { wStarted with teams := [⟨1, "A", -1000⟩, ⟨2, "B", -500⟩] }

def wQueuedEs : EventState := { EventState.new with queued_event := some .HardReset }

def wQueuedHR : GameState := { wStarted with event_state := wQueuedEs }

def wPlayedHR : GameState := (handle wRng wQueuedHR (.PlayEventAnimation .HardReset)).1

def wResolvedHR : GameState := (handle wRng wPlayedHR .ResolveEvent).1

def wCloseEs : EventState := { EventState.new with questions_answered := 3 }

def wCloseReady : GameState :=
  { wStarted with phase := .Resolved (0, 0) 2, event_state := wCloseEs }

def wClosed : GameState := (handle wRng wCloseReady (.CloseClue (0, 0) 2)).1

/-! Basic lemmas about the list helpers. -/

theorem listModify_length (f : α → α) (n : Nat) (l : List α) :
    (listModify f n l).length = l.length := by
  induction l generalizing n with
  | nil => cases n <;> rfl
  | cons x xs ih => cases n <;> simp [listModify, ih]

theorem listModify_get?_self (f : α → α) (n : Nat) (l : List α) :
    (listModify f n l).get? n = (l.get? n).map f := by
  induction l generalizing n with
  | nil => cases n <;> rfl
  | cons x xs ih =>
    cases n with
    | zero => rfl
    | succ n => simp only [listModify, List.get?_cons_succ]; exact ih n

theorem listModify_get?_ne (f : α → α) (n m : Nat) (l : List α) (h : m ≠ n) :
    (listModify f n l).get? m = l.get? m := by
  induction l generalizing n m with
  | nil => cases n <;> rfl
  | cons x xs ih =>
    cases n with
    | zero =>
      cases m with
      | zero => exact absurd rfl h
      | succ m => simp [listModify]
    | succ n =>
      cases m with
      | zero => simp [listModify]
      | succ m =>
        simp only [listModify, List.get?_cons_succ]
        exact ih n m (fun hc => h (by rw [hc]))

theorem listModify_getD_self (f : α → α) (n : Nat) (l : List α) (d : α)
    (h : n < l.length) : (listModify f n l).getD n d = f (l.getD n d) := by
  induction l generalizing n with
  | nil => simp at h
  | cons x xs ih =>
    cases n with
    | zero => rfl
    | succ n =>
      simp only [listModify, List.getD_cons_succ]
      exact ih n (by simpa using h)

theorem listModify_getD_ne (f : α → α) (n m : Nat) (l : List α) (d : α)
    (h : m ≠ n) : (listModify f n l).getD m d = l.getD m d := by
  induction l generalizing n m with
  | nil => cases n <;> rfl
  | cons x xs ih =>
    cases n with
    | zero =>
      cases m with
      | zero => exact absurd rfl h
      | succ m => rfl
    | succ n =>
      cases m with
      | zero => rfl
      | succ m =>
        simp only [listModify, List.getD_cons_succ]
        exact ih n m (fun hc => h (by rw [hc]))

theorem position_cons (p : α → Bool) (x : α) (xs : List α) :
    position p (x :: xs) = if p x then some 0 else (position p xs).map (· + 1) :=
  rfl

theorem position_append_of_true (p : α → Bool) (l₁ : List α) (t : α)
    (r : List α) (h₁ : ∀ x ∈ l₁, p x = false) (ht : p t = true) :
    position p (l₁ ++ t :: r) = some l₁.length := by
  induction l₁ with
  | nil => simp [position, ht]
  | cons x xs ih =>
    have hx : p x = false := h₁ x (List.mem_cons_self x xs)
    have := ih (fun y hy => h₁ y (List.mem_cons_of_mem x hy))
    simp [position, hx, this]

theorem position_eq_none (p : α → Bool) (l : List α)
    (h : ∀ x ∈ l, p x = false) : position p l = none := by
  induction l with
  | nil => rfl
  | cons x xs ih =>
    have hx : p x = false := h x (List.mem_cons_self x xs)
    have := ih (fun y hy => h y (List.mem_cons_of_mem x hy))
    simp [position, hx, this]

theorem get?_append_add (l₁ r : List α) (k : Nat) :
    (l₁ ++ r).get? (l₁.length + k) = r.get? k := by
  induction l₁ with
  | nil => simp
  | cons x xs ih => simpa [Nat.succ_add] using ih

theorem getD_append_add (l₁ r : List α) (k : Nat) (d : α) :
    (l₁ ++ r).getD (l₁.length + k) d = r.getD k d := by
  induction l₁ with
  | nil => simp
  | cons x xs ih => simpa [Nat.succ_add, List.getD_cons_succ] using ih

theorem getD_mem (l : List α) (n : Nat) (d : α) (h : n < l.length) :
    l.getD n d ∈ l := by
  induction l generalizing n with
  | nil => simp at h
  | cons x xs ih =>
    cases n with
    | zero => simp
    | succ n =>
      simp only [List.getD_cons_succ]
      exact List.mem_cons_of_mem x (ih n (by simpa using h))

/-! Lemmas about clue lookup and clue modification on boards. -/

theorem get_clue_eq_board (s : GameState) (clue : Nat × Nat) :
    s.get_clue clue = s.board.getClue clue := rfl

theorem getClue_modifyClue_self (b : Board) (clue : Nat × Nat) (f : Clue → Clue) :
    (modifyClue b clue f).getClue clue = (b.getClue clue).map f := by
  unfold modifyClue Board.getClue
  rw [listModify_get?_self]
  cases h : b.categories.get? clue.1 with
  | none => rfl
  | some cat =>
    simp only [Option.map_some, Option.some_bind]
    exact listModify_get?_self f clue.2 cat.clues

theorem getClue_modifyClue_ne (b : Board) (c₁ c₂ : Nat × Nat) (f : Clue → Clue)
    (h : c₂ ≠ c₁) : (modifyClue b c₁ f).getClue c₂ = b.getClue c₂ := by
  unfold modifyClue Board.getClue
  rcases c₁ with ⟨a₁, b₁⟩
  rcases c₂ with ⟨a₂, b₂⟩
  by_cases hcat : a₂ = a₁
  · subst hcat
    have hrow : b₂ ≠ b₁ := by
      intro hr
      exact h (by rw [hr])
    rw [listModify_get?_self]
    cases hc : b.categories.get? a₂ with
    | none => rfl
    | some cat =>
      simp only [Option.map_some, Option.some_bind]
      exact listModify_get?_ne f b₁ b₂ cat.clues hrow
  · rw [listModify_get?_ne _ _ _ _ hcat]

theorem clueSolved_modifyClue_mono (b : Board) (c₁ c₂ : Nat × Nat)
    (f : Clue → Clue) (hf : ∀ c, c.solved = true → (f c).solved = true)
    (h : b.clueSolved c₂ = true) : (modifyClue b c₁ f).clueSolved c₂ = true := by
  unfold Board.clueSolved at *
  by_cases hc : c₂ = c₁
  · subst hc
    rw [getClue_modifyClue_self]
    cases hg : b.getClue c₂ with
    | none => rw [hg] at h; exact Bool.noConfusion h
    | some c =>
      rw [hg] at h
      exact hf c h
  · rw [getClue_modifyClue_ne _ _ _ _ hc]
    exact h

/-! Lemmas about the scoring helpers. -/

theorem award_points_map_id (l : List Team) (tid : Nat) (p : Int) :
    ((award_points l tid p).1).map Team.id = l.map Team.id := by
  induction l with
  | nil => rfl
  | cons t ts ih =>
    by_cases h : t.id == tid
    · simp [award_points, h]
    · simp only [award_points, h, Bool.false_eq_true, if_false, List.map_cons]
      rw [ih]

theorem deduct_points_map_id (l : List Team) (tid : Nat) (p : Int) :
    ((deduct_points l tid p).1).map Team.id = l.map Team.id := by
  induction l with
  | nil => rfl
  | cons t ts ih =>
    by_cases h : t.id == tid
    · simp [deduct_points, h]
    · simp only [deduct_points, h, Bool.false_eq_true, if_false, List.map_cons]
      rw [ih]

theorem award_points_find? (l : List Team) (tid : Nat) (p : Int) (tm : Team)
    (h : l.find? (fun t => t.id == tid) = some tm) :
    ((award_points l tid p).1).find? (fun t => t.id == tid) =
      some { tm with score := tm.score + p } := by
  induction l with
  | nil => simp [List.find?] at h
  | cons t ts ih =>
    by_cases ht : (t.id == tid) = true
    · rw [@List.find?_cons_of_pos _ (fun x => x.id == tid) t ts ht] at h
      cases h
      simp only [award_points, ht, if_true]
      exact List.find?_cons_of_pos ts
        (show (({ tm with score := tm.score + p } : Team).id == tid) = true from ht)
    · rw [@List.find?_cons_of_neg _ (fun x => x.id == tid) t ts ht] at h
      simp only [award_points, ht, Bool.false_eq_true, if_false]
      rw [@List.find?_cons_of_neg _ (fun x => x.id == tid) t _ ht]
      exact ih h

theorem deduct_points_find? (l : List Team) (tid : Nat) (p : Int) (tm : Team)
    (h : l.find? (fun t => t.id == tid) = some tm) :
    ((deduct_points l tid p).1).find? (fun t => t.id == tid) =
      some { tm with score := tm.score - p } := by
  induction l with
  | nil => simp [List.find?] at h
  | cons t ts ih =>
    by_cases ht : (t.id == tid) = true
    · rw [@List.find?_cons_of_pos _ (fun x => x.id == tid) t ts ht] at h
      cases h
      simp only [deduct_points, ht, if_true]
      exact List.find?_cons_of_pos ts
        (show (({ tm with score := tm.score - p } : Team).id == tid) = true from ht)
    · rw [@List.find?_cons_of_neg _ (fun x => x.id == tid) t ts ht] at h
      simp only [deduct_points, ht, Bool.false_eq_true, if_false]
      rw [@List.find?_cons_of_neg _ (fun x => x.id == tid) t _ ht]
      exact ih h

theorem position_map_id (l : List Team) (a : Nat) :
    position (fun t => t.id == a) l = position (fun i => i == a) (l.map Team.id) := by
  induction l with
  | nil => rfl
  | cons t ts ih => simp [position, ih]

theorem getD_map_id (l₁ l₂ : List Team) (k : Nat) (d₁ d₂ : Team)
    (hl : l₁.map Team.id = l₂.map Team.id) (hd : d₁.id = d₂.id) :
    (l₁.getD k d₁).id = (l₂.getD k d₂).id := by
  induction l₁ generalizing l₂ k with
  | nil =>
    cases l₂ with
    | nil => simpa [List.getD] using hd
    | cons u us => exact absurd hl (by simp)
  | cons t ts ih =>
    cases l₂ with
    | nil => exact absurd hl (by simp)
    | cons u us =>
      simp only [List.map_cons, List.cons.injEq] at hl
      cases k with
      | zero => simpa using hl.1
      | succ k =>
        simp only [List.getD_cons_succ]
        exact ih us k hl.2

/-- Rotation depends only on the sequence of team ids: mutating scores or
names never changes the rotation outcome. -/
theorem rotate_active_team_congr (l₁ l₂ : List Team) (a : Nat)
    (h : l₁.map Team.id = l₂.map Team.id) :
    rotate_active_team l₁ a = rotate_active_team l₂ a := by
  cases l₁ with
  | nil =>
    cases l₂ with
    | nil => rfl
    | cons u us => exact absurd h (by simp)
  | cons t ts =>
    cases l₂ with
    | nil => exact absurd h (by simp)
    | cons u us =>
      have hpos : position (fun x => x.id == a) (t :: ts) =
          position (fun x => x.id == a) (u :: us) := by
        rw [position_map_id, position_map_id, h]
      have hhead : t.id = u.id := by
        have := congrArg (fun l => l.headD 0) h
        simpa using this
      have hlen : (t :: ts).length = (u :: us).length := by
        have := congrArg List.length h
        simpa using this
      unfold rotate_active_team
      rw [hpos]
      cases hp : position (fun x => x.id == a) (u :: us) with
      | none => exact hhead
      | some pos =>
        rw [hlen]
        exact getD_map_id (t :: ts) (u :: us) ((pos + 1) % (u :: us).length) t u h hhead

theorem rotate_pos_eq (t0 : Team) (rest : List Team) (a pos : Nat)
    (hp : position (fun t => t.id == a) (t0 :: rest) = some pos) :
    rotate_active_team (t0 :: rest) a =
      ((t0 :: rest).getD ((pos + 1) % (t0 :: rest).length) t0).id := by
  unfold rotate_active_team
  rw [hp]

theorem rotate_none_eq (t0 : Team) (rest : List Team) (a : Nat)
    (hp : position (fun t => t.id == a) (t0 :: rest) = none) :
    rotate_active_team (t0 :: rest) a = t0.id := by
  unfold rotate_active_team
  rw [hp]

/-- C8: `rotate_active_team` returns the id of the team immediately following
the team carrying the given id in list order (first part), wraps from the last
team to the first (second part), and falls back to the first team's id when
the id is absent from a nonempty list (third part). -/
theorem c8_rotate_active_team_spec :
    (∀ (l₁ l₂ : List Team) (t u : Team) (a : Nat),
        (∀ x ∈ l₁, x.id ≠ a) → t.id = a →
        rotate_active_team (l₁ ++ t :: u :: l₂) a = u.id) ∧
    (∀ (l₁ : List Team) (t : Team) (a : Nat),
        (∀ x ∈ l₁, x.id ≠ a) → t.id = a →
        rotate_active_team (l₁ ++ [t]) a = ((l₁ ++ [t]).headD defaultTeam).id) ∧
    (∀ (teams : List Team) (a : Nat), teams ≠ [] →
        (∀ x ∈ teams, x.id ≠ a) →
        rotate_active_team teams a = (teams.headD defaultTeam).id) := by
  refine ⟨?_, ?_, ?_⟩
  · intro l₁ l₂ t u a h₁ ht
    have hpos : position (fun x => x.id == a) (l₁ ++ t :: u :: l₂) = some l₁.length :=
      position_append_of_true _ l₁ t _
        (fun x hx => beq_eq_false_iff_ne.mpr (h₁ x hx))
        (beq_iff_eq.mpr ht)
    have hlt : l₁.length + 1 < (l₁ ++ t :: u :: l₂).length := by
      simp only [List.length_append, List.length_cons]
      omega
    cases hL : l₁ ++ t :: u :: l₂ with
    | nil => simp at hL
    | cons t0 rest =>
      rw [hL] at hpos
      rw [hL] at hlt
      have hrot := rotate_pos_eq t0 rest a l₁.length hpos
      rw [Nat.mod_eq_of_lt hlt] at hrot
      rw [hrot, ← hL]
      have := getD_append_add l₁ (t :: u :: l₂) 1 t0
      simp only [List.getD_cons_succ, List.getD_cons_zero] at this
      rw [this]
  · intro l₁ t a h₁ ht
    have hpos : position (fun x => x.id == a) (l₁ ++ [t]) = some l₁.length :=
      position_append_of_true _ l₁ t _
        (fun x hx => beq_eq_false_iff_ne.mpr (h₁ x hx))
        (beq_iff_eq.mpr ht)
    have hlen : (l₁ ++ [t]).length = l₁.length + 1 := by
      simp
    cases hL : l₁ ++ [t] with
    | nil => simp at hL
    | cons t0 rest =>
      rw [hL] at hpos
      rw [hL] at hlen
      have hrot := rotate_pos_eq t0 rest a l₁.length hpos
      rw [hlen, Nat.mod_self] at hrot
      rw [hrot]
      simp
  · intro teams a hne h₁
    cases teams with
    | nil => exact absurd rfl hne
    | cons t0 rest =>
      have hpos : position (fun x => x.id == a) (t0 :: rest) = none :=
        position_eq_none _ _ (fun x hx => beq_eq_false_iff_ne.mpr (h₁ x hx))
      rw [rotate_none_eq t0 rest a hpos]
      rfl

/-- C8 witness: in the 3-team list [A, B, C], rotating from B yields C,
rotating from the last team C wraps to A, and rotating from an absent id 99
also yields A. -/
theorem c8_witness :
    rotate_active_team [⟨1, "A", 0⟩, ⟨2, "B", 0⟩, ⟨3, "C", 0⟩] 2 = 3 ∧
    rotate_active_team [⟨1, "A", 0⟩, ⟨2, "B", 0⟩, ⟨3, "C", 0⟩] 3 = 1 ∧
    rotate_active_team [⟨1, "A", 0⟩, ⟨2, "B", 0⟩, ⟨3, "C", 0⟩] 99 = 1 := by
  refine ⟨?_, ?_, ?_⟩
  · exact c8_rotate_active_team_spec.1 [⟨1, "A", 0⟩] [] ⟨2, "B", 0⟩ ⟨3, "C", 0⟩ 2
      (by decide) rfl
  · exact c8_rotate_active_team_spec.2.1 [⟨1, "A", 0⟩, ⟨2, "B", 0⟩] ⟨3, "C", 0⟩ 3
      (by decide) rfl
  · exact c8_rotate_active_team_spec.2.2 [⟨1, "A", 0⟩, ⟨2, "B", 0⟩, ⟨3, "C", 0⟩] 99
      (by decide) (by decide)


theorem get_question_points_swap (s : GameState) (cl : Nat × Nat) :
    get_question_points
      { s with board := modifyClue s.board cl ReverseQuestionEvent.apply_to_clue } cl
      = get_question_points s cl := by
  unfold get_question_points
  rw [get_clue_eq_board, get_clue_eq_board]
  show (((modifyClue s.board cl ReverseQuestionEvent.apply_to_clue).getClue cl).map
    Clue.points).getD 0 = ((s.board.getClue cl).map Clue.points).getD 0
  rw [getClue_modifyClue_self]
  cases s.board.getClue cl <;> rfl

/-- C7: the maximum number of owner attempts is 2 exactly when the clue's
points exceed 500 and 1 otherwise (500 gives 1, 501 and 800 give 2), and a
successful clue selection enters Showing with the attempt counter at 1 and
this computed maximum. -/
theorem c7_max_attempts_spec :
    calculate_max_attempts 500 = 1 ∧
    calculate_max_attempts 501 = 2 ∧
    calculate_max_attempts 800 = 2 ∧
    (∀ p, calculate_max_attempts p = 2 ↔ 500 < p) ∧
    (∀ p, calculate_max_attempts p = 1 ↔ p ≤ 500) ∧
    (∀ (rng : Rand) (s : GameState) (cl : Nat × Nat) (t : Nat),
        ((handle rng s (.SelectClue cl t)).2).isOk = true →
        (handle rng s (.SelectClue cl t)).1.phase =
          .Showing cl t 1 (calculate_max_attempts (get_question_points s cl))) := by
  refine ⟨rfl, rfl, rfl, ?_, ?_, ?_⟩
  · intro p
    unfold calculate_max_attempts
    split <;> omega
  · intro p
    unfold calculate_max_attempts
    split <;> omega
  · intro rng s cl t h
    show (handle_select_clue s cl t).1.phase = _
    have h' : ((handle_select_clue s cl t).2).isOk = true := h
    unfold handle_select_clue at h' ⊢
    by_cases hv : validate_team_action s t (.SelectClue cl t) = true
    · simp only [hv, Bool.not_true, Bool.false_eq_true, if_false]
      by_cases hr : s.event_state.is_event_active .ReverseQuestion = true
      · simp only [hr, if_true]
        cases hg : s.get_clue cl with
        | none => rfl
        | some c =>
          simp only [get_question_points_swap]
      · simp only [hr, Bool.false_eq_true, if_false]
    · simp only [hv, Bool.not_false, Bool.false_eq_true, if_true] at h'
      exact absurd h' (by simp [Except.isOk, Except.toBool])

/-- C7 witness: in a concrete reachable Selecting state, selecting the
800-point clue succeeds and enters Showing with counter 1 and maximum 2. -/
theorem c7_witness :
    (handle wRng wStarted (.SelectClue (0, 1) 1)).1.phase =
      .Showing (0, 1) 1 1 (calculate_max_attempts (get_question_points wStarted (0, 1))) ∧
    calculate_max_attempts (get_question_points wStarted (0, 1)) = 2 :=
  ⟨(c7_max_attempts_spec.2.2.2.2.2) wRng wStarted (0, 1) 1 (by rfl), by rfl⟩



/-- The final-attempt path never fails. -/
theorem handle_final_attempt_incorrect_isOk (rng : Rand) (s : GameState)
    (cl : Nat × Nat) (tid : Nat) (effs : List GameEffect) :
    ((handle_final_attempt_incorrect rng s cl tid effs).2).isOk = true := rfl

/-- C1: the action entry point is atomic — whenever it returns a typed error,
the returned state (board, teams, phase, active team, event state and all) is
exactly the input state. -/
theorem c1_error_leaves_state_unchanged :
    ∀ (rng : Rand) (s : GameState) (a : GameAction) (e : GameError),
      (handle rng s a).2 = .error e → (handle rng s a).1 = s := by
  intro rng s a e
  cases a with
  | AddTeam name =>
    simp only [handle]
    unfold handle_add_team
    split
    · intro _; rfl
    · intro h; exact absurd h (by simp)
  | StartGame =>
    simp only [handle]
    unfold handle_start_game
    split
    · intro _; rfl
    · intro h; exact absurd h (by simp)
  | SelectClue cl t =>
    simp only [handle]
    unfold handle_select_clue
    split
    · intro _; rfl
    · intro h; exact absurd h (by simp)
  | AnswerCorrect cl t =>
    simp only [handle]
    unfold handle_answer_correct
    split
    · intro _; rfl
    · intro h; exact absurd h (by simp)
  | AnswerIncorrect cl t =>
    simp only [handle]
    unfold handle_answer_incorrect
    split
    · intro _; rfl
    · split
      · split
        · intro h; exact absurd h (by simp)
        · intro h
          have hok := handle_final_attempt_incorrect_isOk rng s cl t
            [GameEffect.FlashEffect .Incorrect]
          rw [h] at hok
          exact absurd hok (by simp [Except.isOk, Except.toBool])
      · intro _; rfl
  | StealAttempt cl t b =>
    simp only [handle]
    unfold handle_steal_attempt
    split
    · intro _; rfl
    · split
      · split
        · intro h; exact absurd h (by simp)
        · split
          · intro h; exact absurd h (by simp)
          · intro h; exact absurd h (by simp)
      · intro _; rfl
  | CloseClue cl nt =>
    simp only [handle]
    unfold handle_close_clue
    split
    · intro _; rfl
    · intro h; exact absurd h (by simp)
  | QueueEvent ev =>
    intro h; exact absurd h (by simp [handle, handle_queue_event])
  | PlayEventAnimation ev =>
    intro h; exact absurd h (by simp [handle, handle_play_event_animation])
  | TriggerEvent ev =>
    simp only [handle]
    unfold handle_trigger_event
    split
    · intro _; rfl
    · intro h; exact absurd h (by simp)
  | AcknowledgeEvent =>
    intro h; exact absurd h (by simp [handle, handle_acknowledge_event])
  | ResolveEvent =>
    intro h; exact absurd h (by simp [handle, handle_resolve_event])
  | ReturnToConfig =>
    intro h; exact absurd h (by simp [handle, handle_return_to_config])
  | ManualPointsAdjustment tid np =>
    simp only [handle]
    unfold handle_manual_points_adjustment
    split
    · intro h; exact absurd h (by simp)
    · intro _; rfl

/-- C1 witness: starting the game from an empty lobby fails with the typed
invalid-action error and leaves the fresh state untouched. -/
theorem c1_witness :
    (handle wRng wLobby .StartGame).2 = .error (.InvalidAction "StartGame"
      "Game can only be started from lobby with at least one team") ∧
    (handle wRng wLobby .StartGame).1 = wLobby :=
  ⟨rfl, c1_error_leaves_state_unchanged wRng wLobby .StartGame
    (.InvalidAction "StartGame"
      "Game can only be started from lobby with at least one team") rfl⟩



theorem resolve_correct_clue_active_team (s : GameState) (cl : Nat × Nat)
    (t : Nat) : ((resolve_correct_clue s cl t).1).active_team = s.active_team := by
  unfold resolve_correct_clue
  cases hg : s.get_clue cl with
  | none => rfl
  | some c =>
    simp only []
    split <;> split <;> rfl

theorem resolve_correct_clue_teams_map_id (s : GameState) (cl : Nat × Nat)
    (t : Nat) :
    (((resolve_correct_clue s cl t).1).teams).map Team.id = s.teams.map Team.id := by
  unfold resolve_correct_clue
  cases hg : s.get_clue cl with
  | none => rfl
  | some c =>
    simp only []
    split <;> split <;> exact award_points_map_id _ _ _

theorem exhaust_steal_clue_teams (s : GameState) (cl : Nat × Nat)
    (effs : List GameEffect) : ((exhaust_steal_clue s cl effs).1).teams = s.teams := by
  unfold exhaust_steal_clue
  cases s.get_clue cl with
  | none => rfl
  | some c =>
    simp only []
    split <;> rfl

theorem exhaust_steal_clue_active_team (s : GameState) (cl : Nat × Nat)
    (effs : List GameEffect) :
    ((exhaust_steal_clue s cl effs).1).active_team = s.active_team := by
  unfold exhaust_steal_clue
  cases s.get_clue cl with
  | none => rfl
  | some c =>
    simp only []
    split <;> rfl

/-- C3: every clue-resolving action (a correct owner answer, a correct steal,
or an incorrect steal that exhausts the queue) places in the Resolved phase
the rotation of the pre-mutation active-team id, never the rotation of the
team that scored. -/
theorem c3_rotation_uses_premutation_pivot :
    ∀ (rng : Rand) (s : GameState) (cl : Nat × Nat) (t : Nat),
      (((handle rng s (.AnswerCorrect cl t)).2).isOk = true →
        (handle rng s (.AnswerCorrect cl t)).1.phase =
          .Resolved cl (rotate_active_team s.teams s.active_team)) ∧
      (∀ b : Bool, ((handle rng s (.StealAttempt cl t b)).2).isOk = true →
        ∀ c n, (handle rng s (.StealAttempt cl t b)).1.phase = .Resolved c n →
          c = cl ∧ n = rotate_active_team s.teams s.active_team) := by
  intro rng s cl t
  constructor
  · show ((handle_answer_correct s cl t).2).isOk = true →
      (handle_answer_correct s cl t).1.phase =
        .Resolved cl (rotate_active_team s.teams s.active_team)
    unfold handle_answer_correct
    split
    · intro h; exact absurd h (by simp [Except.isOk, Except.toBool])
    · intro _
      show PlayPhase.Resolved cl
        (rotate_active_team ((resolve_correct_clue s cl t).1).teams
          ((resolve_correct_clue s cl t).1).active_team) = _
      rw [resolve_correct_clue_active_team,
        rotate_active_team_congr _ s.teams _ (resolve_correct_clue_teams_map_id s cl t)]
  · intro b
    show ((handle_steal_attempt s cl t b).2).isOk = true →
      ∀ c n, (handle_steal_attempt s cl t b).1.phase = .Resolved c n →
        c = cl ∧ n = rotate_active_team s.teams s.active_team
    unfold handle_steal_attempt
    split
    · intro h; exact absurd h (by simp [Except.isOk, Except.toBool])
    · split
      · split
        · intro _ c n hph
          have hph' : PlayPhase.Resolved cl
              (rotate_active_team ((resolve_correct_clue s cl t).1).teams
                ((resolve_correct_clue s cl t).1).active_team) =
              PlayPhase.Resolved c n := hph
          rw [resolve_correct_clue_active_team, rotate_active_team_congr _ s.teams _
            (resolve_correct_clue_teams_map_id s cl t)] at hph'
          have hinj := (PlayPhase.Resolved.injEq .. |>.mp hph'.symm)
          exact ⟨hinj.1, hinj.2⟩
        · split
          · intro _ c n hph
            exact absurd hph (by simp)
          · intro _ c n hph
            have hph' : PlayPhase.Resolved cl
                (rotate_active_team
                  ((exhaust_steal_clue s cl [GameEffect.FlashEffect .Incorrect]).1).teams
                  ((exhaust_steal_clue s cl [GameEffect.FlashEffect .Incorrect]).1).active_team) =
                PlayPhase.Resolved c n := hph
            rw [exhaust_steal_clue_teams, exhaust_steal_clue_active_team] at hph'
            have hinj := (PlayPhase.Resolved.injEq .. |>.mp hph'.symm)
            exact ⟨hinj.1, hinj.2⟩
      · intro h; exact absurd h (by simp [Except.isOk, Except.toBool])

/-- C3 witness: in a concrete 2-team Steal state with an empty queue, the
incorrect steal resolves the clue and rotates from the original selector
(team 1), giving team 2 the next turn. -/
theorem c3_witness :
    wExhausted.phase =
      .Resolved (0, 0) (rotate_active_team wSteal.teams wSteal.active_team) ∧
    rotate_active_team wSteal.teams wSteal.active_team = 2 := by
  have h := (c3_rotation_uses_premutation_pivot wRng wSteal (0, 0) 2).2 false
    (by rfl) (0, 0) 2 (by rfl)
  refine ⟨?_, h.2.symm⟩
  rw [← h.2]
  rfl


/-- C6: on a clue shown with a maximum of 2 attempts, an incorrect owner
answer at counter 1 stays in Showing with the counter at 2 and no score
change; the incorrect answer at the maximum deducts exactly the clue's points
(doubled while Double-Points is active) from the owner and moves to Steal. -/
theorem c6_two_attempt_behaviour :
    ∀ (rng : Rand) (s : GameState) (cl : Nat × Nat) (own cnt : Nat) (c : Clue)
      (tm : Team),
      s.phase = .Showing cl own cnt 2 →
      s.get_clue cl = some c →
      s.teams.find? (fun t => t.id == own) = some tm →
      ((cnt = 1 →
        (handle rng s (.AnswerIncorrect cl own)).1.phase = .Showing cl own 2 2 ∧
        (handle rng s (.AnswerIncorrect cl own)).1.teams = s.teams) ∧
       (cnt = 2 →
        (∃ q cur, (handle rng s (.AnswerIncorrect cl own)).1.phase = .Steal cl q cur own) ∧
        ((handle rng s (.AnswerIncorrect cl own)).1).teams.find? (fun t => t.id == own) =
          some { tm with score := tm.score -
            (if s.event_state.is_event_active .DoublePoints then (c.points : Int) * 2
             else (c.points : Int)) })) := by
  intro rng s cl own cnt c tm hph hg hfind
  have hv : validate_team_action s own (.AnswerIncorrect cl own) = true := by
    simp [validate_team_action, hfind, hph]
  constructor
  · intro hcnt
    subst hcnt
    have hgoal : (handle_answer_incorrect rng s cl own).1.phase = .Showing cl own 2 2 ∧
        (handle_answer_incorrect rng s cl own).1.teams = s.teams := by
      unfold handle_answer_incorrect
      simp only [hv, Bool.not_true, Bool.false_eq_true, if_false, hph]
      norm_num
    exact hgoal
  · intro hcnt
    subst hcnt
    have hgoal : (∃ q cur,
          (handle_answer_incorrect rng s cl own).1.phase = .Steal cl q cur own) ∧
        ((handle_answer_incorrect rng s cl own).1).teams.find? (fun t => t.id == own) =
          some { tm with score := tm.score -
            (if s.event_state.is_event_active .DoublePoints then (c.points : Int) * 2
             else (c.points : Int)) } := by
      unfold handle_answer_incorrect
      simp only [hv, Bool.not_true, Bool.false_eq_true, if_false, hph]
      norm_num
      unfold handle_final_attempt_incorrect
      simp only [hg]
      by_cases hdp : s.event_state.is_event_active .DoublePoints = true
      · simp only [hdp, if_true]
        constructor
        · exact ⟨_, _, rfl⟩
        · have hd := deduct_points_find? s.teams own
            (DoublePointsEvent.calculate_penalty c.points) tm hfind
          show (deduct_points s.teams own (DoublePointsEvent.calculate_penalty c.points)).1.find?
            (fun t => t.id == own) = _
          rw [hd]
          unfold DoublePointsEvent.calculate_penalty
          norm_num
      · simp only [hdp, Bool.false_eq_true, if_false]
        constructor
        · exact ⟨_, _, rfl⟩
        · have hd := deduct_points_find? s.teams own ((c.points : Int)) tm hfind
          show (deduct_points s.teams own ((c.points : Int))).1.find?
            (fun t => t.id == own) = _
          rw [hd]
    exact hgoal

/-- C6 witness: on the concrete 800-point clue, the first incorrect answer
leaves Showing with the counter at 2 and team scores untouched; the second
incorrect answer deducts 800 points from the owner. -/
theorem c6_witness :
    wShowing800b.phase = .Showing (0, 1) 1 2 2 ∧
    wShowing800b.teams = wShowing800.teams ∧
    (handle wRng wShowing800b (.AnswerIncorrect (0, 1) 1)).1.teams.find?
      (fun t => t.id == 1) = some ⟨1, "A", -800⟩ := by
  have h1 := (c6_two_attempt_behaviour wRng wShowing800 (0, 1) 1 1
    ⟨2, 800, "Q2", "A2", false, false⟩ ⟨1, "A", 0⟩ rfl rfl rfl).1 rfl
  have h2 := (c6_two_attempt_behaviour wRng wShowing800b (0, 1) 1 2
    ⟨2, 800, "Q2", "A2", false, false⟩ ⟨1, "A", 0⟩ rfl rfl rfl).2 rfl
  refine ⟨h1.1, h1.2, ?_⟩
  rw [h2.2]
  decide



theorem getD_eq_get (l : List α) (i : Nat) (d : α) (h : i < l.length) :
    l.getD i d = l.get ⟨i, h⟩ := by
  induction l generalizing i with
  | nil => simp at h
  | cons x xs ih =>
    cases i with
    | zero => rfl
    | succ i => exact ih i (by simpa using h)

theorem lh_go_bounds (teams : List Team) (idxs : List Nat) (acc : Nat × Nat) :
    ((lh_go teams idxs acc).1 = acc.1 ∨ (lh_go teams idxs acc).1 ∈ idxs) ∧
    ((lh_go teams idxs acc).2 = acc.2 ∨ (lh_go teams idxs acc).2 ∈ idxs) ∧
    (teams.getD (lh_go teams idxs acc).1 defaultTeam).score ≤
      (teams.getD acc.1 defaultTeam).score ∧
    (teams.getD acc.2 defaultTeam).score ≤
      (teams.getD (lh_go teams idxs acc).2 defaultTeam).score ∧
    (∀ i ∈ idxs,
      (teams.getD (lh_go teams idxs acc).1 defaultTeam).score ≤
        (teams.getD i defaultTeam).score ∧
      (teams.getD i defaultTeam).score ≤
        (teams.getD (lh_go teams idxs acc).2 defaultTeam).score) := by
  induction idxs generalizing acc with
  | nil =>
    refine ⟨Or.inl rfl, Or.inl rfl, le_refl _, le_refl _, ?_⟩
    intro i hi
    simp at hi
  | cons i rest ih =>
    rcases acc with ⟨mi, ma⟩
    by_cases hmin : (teams.getD i defaultTeam).score < (teams.getD mi defaultTeam).score <;>
      by_cases hmax : (teams.getD i defaultTeam).score > (teams.getD ma defaultTeam).score
    · have hstep : lh_go teams (i :: rest) (mi, ma) = lh_go teams rest (i, i) := by
        simp only [lh_go]
        rw [if_pos hmin, if_pos hmax]
      rw [hstep]
      obtain ⟨m1, m2, b1, b2, ball⟩ := ih (i, i)
      refine ⟨?_, ?_, le_trans b1 (le_of_lt hmin), le_trans (le_of_lt hmax) b2, ?_⟩
      · rcases m1 with h | h
        · exact Or.inr (by rw [h]; exact List.mem_cons_self i rest)
        · exact Or.inr (List.mem_cons_of_mem i h)
      · rcases m2 with h | h
        · exact Or.inr (by rw [h]; exact List.mem_cons_self i rest)
        · exact Or.inr (List.mem_cons_of_mem i h)
      · intro j hj
        rcases List.mem_cons.mp hj with rfl | h
        · exact ⟨b1, b2⟩
        · exact ball j h
    · have hstep : lh_go teams (i :: rest) (mi, ma) = lh_go teams rest (i, ma) := by
        simp only [lh_go]
        rw [if_pos hmin, if_neg hmax]
      rw [hstep]
      obtain ⟨m1, m2, b1, b2, ball⟩ := ih (i, ma)
      have hile : (teams.getD i defaultTeam).score ≤ (teams.getD ma defaultTeam).score :=
        not_lt.mp hmax
      refine ⟨?_, ?_, le_trans b1 (le_of_lt hmin), b2, ?_⟩
      · rcases m1 with h | h
        · exact Or.inr (by rw [h]; exact List.mem_cons_self i rest)
        · exact Or.inr (List.mem_cons_of_mem i h)
      · rcases m2 with h | h
        · exact Or.inl h
        · exact Or.inr (List.mem_cons_of_mem i h)
      · intro j hj
        rcases List.mem_cons.mp hj with rfl | h
        · exact ⟨b1, le_trans hile b2⟩
        · exact ball j h
    · have hstep : lh_go teams (i :: rest) (mi, ma) = lh_go teams rest (mi, i) := by
        simp only [lh_go]
        rw [if_neg hmin, if_pos hmax]
      rw [hstep]
      obtain ⟨m1, m2, b1, b2, ball⟩ := ih (mi, i)
      have hige : (teams.getD mi defaultTeam).score ≤ (teams.getD i defaultTeam).score :=
        not_lt.mp hmin
      refine ⟨?_, ?_, b1, le_trans (le_of_lt hmax) b2, ?_⟩
      · rcases m1 with h | h
        · exact Or.inl h
        · exact Or.inr (List.mem_cons_of_mem i h)
      · rcases m2 with h | h
        · exact Or.inr (by rw [h]; exact List.mem_cons_self i rest)
        · exact Or.inr (List.mem_cons_of_mem i h)
      · intro j hj
        rcases List.mem_cons.mp hj with rfl | h
        · exact ⟨le_trans b1 hige, b2⟩
        · exact ball j h
    · have hstep : lh_go teams (i :: rest) (mi, ma) = lh_go teams rest (mi, ma) := by
        simp only [lh_go]
        rw [if_neg hmin, if_neg hmax]
      rw [hstep]
      obtain ⟨m1, m2, b1, b2, ball⟩ := ih (mi, ma)
      have hige : (teams.getD mi defaultTeam).score ≤ (teams.getD i defaultTeam).score :=
        not_lt.mp hmin
      have hile : (teams.getD i defaultTeam).score ≤ (teams.getD ma defaultTeam).score :=
        not_lt.mp hmax
      refine ⟨?_, ?_, b1, b2, ?_⟩
      · rcases m1 with h | h
        · exact Or.inl h
        · exact Or.inr (List.mem_cons_of_mem i h)
      · rcases m2 with h | h
        · exact Or.inl h
        · exact Or.inr (List.mem_cons_of_mem i h)
      · intro j hj
        rcases List.mem_cons.mp hj with rfl | h
        · exact ⟨le_trans b1 hige, le_trans hile b2⟩
        · exact ball j h

theorem lh_go_of_eq (teams : List Team) (idxs : List Nat) (acc : Nat × Nat)
    (h1 : ∀ i ∈ idxs,
      (teams.getD i defaultTeam).score = (teams.getD acc.1 defaultTeam).score)
    (h2 : ∀ i ∈ idxs,
      (teams.getD i defaultTeam).score = (teams.getD acc.2 defaultTeam).score) :
    lh_go teams idxs acc = acc := by
  induction idxs with
  | nil => rfl
  | cons i rest ih =>
    rcases acc with ⟨mi, ma⟩
    have hi1 := h1 i (List.mem_cons_self i rest)
    have hi2 := h2 i (List.mem_cons_self i rest)
    have hstep : lh_go teams (i :: rest) (mi, ma) = lh_go teams rest (mi, ma) := by
      simp only [lh_go]
      rw [if_neg (by rw [hi1]; exact lt_irrefl _),
        if_neg (by show ¬((teams.getD i defaultTeam).score >
          (teams.getD ma defaultTeam).score); rw [hi2]; exact lt_irrefl _)]
    rw [hstep]
    exact ih (fun j hj => h1 j (List.mem_cons_of_mem i hj))
      (fun j hj => h2 j (List.mem_cons_of_mem i hj))


theorem lowest_highest_none_iff (teams : List Team) :
    lowest_and_highest_team_indices teams = none ↔
      (teams.length < 2 ∨ ∀ t ∈ teams, ∀ u ∈ teams, t.score = u.score) := by
  unfold lowest_and_highest_team_indices
  by_cases hlen : teams.length < 2
  · rw [if_pos hlen]
    simp [hlen]
  · rw [if_neg hlen]
    show (if ((lh_go teams (List.range teams.length) (0, 0)).1 ==
          (lh_go teams (List.range teams.length) (0, 0)).2) = true then none
        else some (lh_go teams (List.range teams.length) (0, 0))) = none ↔ _
    constructor
    · intro h
      right
      by_cases hmm : ((lh_go teams (List.range teams.length) (0, 0)).1 ==
          (lh_go teams (List.range teams.length) (0, 0)).2) = true
      · have heq : (lh_go teams (List.range teams.length) (0, 0)).1 =
            (lh_go teams (List.range teams.length) (0, 0)).2 := beq_iff_eq.mp hmm
        have hb := lh_go_bounds teams (List.range teams.length) (0, 0)
        intro t ht u hu
        obtain ⟨⟨it, hit⟩, rfl⟩ := List.mem_iff_get.mp ht
        obtain ⟨⟨iu, hiu⟩, rfl⟩ := List.mem_iff_get.mp hu
        have hbt := hb.2.2.2.2 it (List.mem_range.mpr hit)
        have hbu := hb.2.2.2.2 iu (List.mem_range.mpr hiu)
        rw [heq] at hbt hbu
        rw [← getD_eq_get teams it defaultTeam hit, ← getD_eq_get teams iu defaultTeam hiu]
        have h1 := le_antisymm hbt.2 hbt.1
        have h2 := le_antisymm hbu.2 hbu.1
        exact h1.trans h2.symm
      · rw [if_neg hmm] at h
        exact absurd h (by simp)
    · intro h
      rcases h with hlen2 | hall
      · exact absurd hlen2 hlen
      · have hmm : lh_go teams (List.range teams.length) (0, 0) = (0, 0) := by
          apply lh_go_of_eq <;>
            · intro i hi
              have hi' : i < teams.length := List.mem_range.mp hi
              have h0 : 0 < teams.length := by omega
              show (teams.getD i defaultTeam).score = (teams.getD 0 defaultTeam).score
              exact hall _ (getD_mem teams i defaultTeam hi') _
                (getD_mem teams 0 defaultTeam h0)
        rw [hmm]
        rfl
    
theorem lowest_highest_some_spec (teams : List Team) (ti vi : Nat)
    (h : lowest_and_highest_team_indices teams = some (ti, vi)) :
    ti ≠ vi ∧ ti < teams.length ∧ vi < teams.length ∧
    (∀ u ∈ teams, (teams.getD ti defaultTeam).score ≤ u.score) ∧
    (∀ u ∈ teams, u.score ≤ (teams.getD vi defaultTeam).score) := by
  unfold lowest_and_highest_team_indices at h
  by_cases hlen : teams.length < 2
  · rw [if_pos hlen] at h
    exact absurd h (by simp)
  · rw [if_neg hlen] at h
    have h' : (if ((lh_go teams (List.range teams.length) (0, 0)).1 ==
          (lh_go teams (List.range teams.length) (0, 0)).2) = true then none
        else some (lh_go teams (List.range teams.length) (0, 0))) = some (ti, vi) := h
    by_cases hmm : ((lh_go teams (List.range teams.length) (0, 0)).1 ==
        (lh_go teams (List.range teams.length) (0, 0)).2) = true
    · rw [if_pos hmm] at h'
      exact absurd h' (by simp)
    · rw [if_neg hmm] at h'
      have hr : lh_go teams (List.range teams.length) (0, 0) = (ti, vi) :=
        Option.some.inj h'
      have hne : ti ≠ vi := by
        intro hcontra
        apply hmm
        rw [hr, hcontra]
        exact beq_self_eq_true vi
      have hb := lh_go_bounds teams (List.range teams.length) (0, 0)
      rw [hr] at hb
      have h0 : 0 < teams.length := by omega
      have hti : ti < teams.length := by
        rcases hb.1 with hh | hh
        · have hz : ti = 0 := hh
          rw [hz]; exact h0
        · exact List.mem_range.mp hh
      have hvi : vi < teams.length := by
        rcases hb.2.1 with hh | hh
        · have hz : vi = 0 := hh
          rw [hz]; exact h0
        · exact List.mem_range.mp hh
      refine ⟨hne, hti, hvi, ?_, ?_⟩
      · intro u hu
        obtain ⟨⟨iu, hiu⟩, rfl⟩ := List.mem_iff_get.mp hu
        have hbu := hb.2.2.2.2 iu (List.mem_range.mpr hiu)
        rw [← getD_eq_get teams iu defaultTeam hiu]
        exact hbu.1
      · intro u hu
        obtain ⟨⟨iu, hiu⟩, rfl⟩ := List.mem_iff_get.mp hu
        have hbu := hb.2.2.2.2 iu (List.mem_range.mpr hiu)
        rw [← getD_eq_get teams iu defaultTeam hiu]
        exact hbu.2



theorem score_steal_apply_none (s : GameState)
    (h : lowest_and_highest_team_indices s.teams = none) :
    score_steal_apply s = (s, []) := by
  unfold score_steal_apply
  rw [h]

theorem score_steal_apply_some_spec (s : GameState) (ti vi : Nat)
    (h : lowest_and_highest_team_indices s.teams = some (ti, vi))
    (hne : ti ≠ vi) (hti : ti < s.teams.length) (hvi : vi < s.teams.length) :
    ((score_steal_apply s).1.teams.getD vi defaultTeam =
      { s.teams.getD vi defaultTeam with score := ((s.teams.getD vi defaultTeam).score -
          max (Int.fdiv (s.teams.getD vi defaultTeam).score 5) 0) }) ∧
    ((score_steal_apply s).1.teams.getD ti defaultTeam =
      { s.teams.getD ti defaultTeam with score := ((s.teams.getD ti defaultTeam).score +
          max (Int.fdiv (s.teams.getD vi defaultTeam).score 5) 0) }) ∧
    (∀ j, j ≠ ti → j ≠ vi →
      (score_steal_apply s).1.teams.getD j defaultTeam = s.teams.getD j defaultTeam) ∧
    ((score_steal_apply s).1.event_state.last_steal =
      some ⟨(s.teams.getD ti defaultTeam).id, (s.teams.getD ti defaultTeam).name,
        (s.teams.getD vi defaultTeam).id, (s.teams.getD vi defaultTeam).name,
        max (Int.fdiv (s.teams.getD vi defaultTeam).score 5) 0⟩) := by
  have hne' : vi ≠ ti := fun hc => hne hc.symm
  simp only [score_steal_apply, h]
  refine ⟨?_, ?_, ?_, by trivial⟩
  · rw [listModify_getD_ne _ _ _ _ _ hne']
    exact listModify_getD_self _ vi s.teams defaultTeam hvi
  · rw [listModify_getD_self _ ti _ defaultTeam
      (by rw [listModify_length]; exact hti)]
    rw [listModify_getD_ne _ _ _ _ _ hne]
  · intro j hj1 hj2
    rw [listModify_getD_ne _ _ _ _ _ hj1, listModify_getD_ne _ _ _ _ _ hj2]



/-- C5 (amended): with no event active, triggering Score-Steal succeeds; it is
a no-op on teams and snapshot exactly when fewer than two teams exist or all
scores are equal; otherwise it moves max(0, floor(20% of the highest score))
from the first highest-scoring team to the first lowest-scoring team and
records the thief/victim/amount snapshot, leaving every other team untouched. -/
theorem c5_score_steal_spec :
    ∀ (rng : Rand) (s : GameState),
      s.event_state.active_event = none →
      (((handle rng s (.TriggerEvent .ScoreSteal)).2).isOk = true) ∧
      (lowest_and_highest_team_indices s.teams = none ↔
        (s.teams.length < 2 ∨ ∀ t ∈ s.teams, ∀ u ∈ s.teams, t.score = u.score)) ∧
      (lowest_and_highest_team_indices s.teams = none →
        (handle rng s (.TriggerEvent .ScoreSteal)).1.teams = s.teams ∧
        (handle rng s (.TriggerEvent .ScoreSteal)).1.event_state.last_steal =
          s.event_state.last_steal) ∧
      (∀ ti vi, lowest_and_highest_team_indices s.teams = some (ti, vi) →
        ti ≠ vi ∧
        (∀ u ∈ s.teams, (s.teams.getD ti defaultTeam).score ≤ u.score) ∧
        (∀ u ∈ s.teams, u.score ≤ (s.teams.getD vi defaultTeam).score) ∧
        (handle rng s (.TriggerEvent .ScoreSteal)).1.teams.getD vi defaultTeam =
          { s.teams.getD vi defaultTeam with score := ((s.teams.getD vi defaultTeam).score -
              max (Int.fdiv (s.teams.getD vi defaultTeam).score 5) 0) } ∧
        (handle rng s (.TriggerEvent .ScoreSteal)).1.teams.getD ti defaultTeam =
          { s.teams.getD ti defaultTeam with score := ((s.teams.getD ti defaultTeam).score +
              max (Int.fdiv (s.teams.getD vi defaultTeam).score 5) 0) } ∧
        (∀ j, j ≠ ti → j ≠ vi →
          (handle rng s (.TriggerEvent .ScoreSteal)).1.teams.getD j defaultTeam =
            s.teams.getD j defaultTeam) ∧
        (handle rng s (.TriggerEvent .ScoreSteal)).1.event_state.last_steal =
          some ⟨(s.teams.getD ti defaultTeam).id, (s.teams.getD ti defaultTeam).name,
            (s.teams.getD vi defaultTeam).id, (s.teams.getD vi defaultTeam).name,
            max (Int.fdiv (s.teams.getD vi defaultTeam).score 5) 0⟩) := by
  intro rng s hact
  have key : (handle rng s (.TriggerEvent .ScoreSteal)).1 =
      (score_steal_apply
        { s with event_state := s.event_state.activate_event .ScoreSteal }).1 := by
    show (handle_trigger_event s .ScoreSteal).1 = _
    unfold handle_trigger_event
    rw [hact]
    rfl
  have hok : ((handle rng s (.TriggerEvent .ScoreSteal)).2).isOk = true := by
    show ((handle_trigger_event s .ScoreSteal).2).isOk = true
    unfold handle_trigger_event
    rw [hact]
    rfl
  refine ⟨hok, lowest_highest_none_iff s.teams, ?_, ?_⟩
  · intro hn
    have hn1 : lowest_and_highest_team_indices
        ({ s with event_state := s.event_state.activate_event .ScoreSteal } :
          GameState).teams = none := hn
    have happ := score_steal_apply_none _ hn1
    constructor
    · rw [key, happ]
    · rw [key, happ]
      rfl
  · intro ti vi hsome
    have hspec := lowest_highest_some_spec s.teams ti vi hsome
    obtain ⟨hne, hti, hvi, hlow, hhigh⟩ := hspec
    have hsome1 : lowest_and_highest_team_indices
        ({ s with event_state := s.event_state.activate_event .ScoreSteal } :
          GameState).teams = some (ti, vi) := hsome
    have happ := score_steal_apply_some_spec
      { s with event_state := s.event_state.activate_event .ScoreSteal } ti vi
      hsome1 hne hti hvi
    refine ⟨hne, hlow, hhigh, ?_, ?_, ?_, ?_⟩
    · rw [key]; exact happ.1
    · rw [key]; exact happ.2.1
    · intro j hj1 hj2
      rw [key]; exact happ.2.2.1 j hj1 hj2
    · rw [key]; exact happ.2.2.2



/-- C5 witness: the spec example — scores [200, 1000] become [400, 800] with a
snapshot of thief 1 / victim 2 / amount 200, while equal scores [500, 500]
stay unchanged with no snapshot. -/
theorem c5_witness :
    (handle wRng wSsState (.TriggerEvent .ScoreSteal)).1.teams.getD 1 defaultTeam =
      ⟨2, "High", 800⟩ ∧
    (handle wRng wSsState (.TriggerEvent .ScoreSteal)).1.teams.getD 0 defaultTeam =
      ⟨1, "Low", 400⟩ ∧
    (handle wRng wSsState (.TriggerEvent .ScoreSteal)).1.event_state.last_steal =
      some ⟨1, "Low", 2, "High", 200⟩ ∧
    (handle wRng wSsEqState (.TriggerEvent .ScoreSteal)).1.teams = wSsEqState.teams ∧
    (handle wRng wSsEqState (.TriggerEvent .ScoreSteal)).1.event_state.last_steal =
      none := by
  have h1 := (c5_score_steal_spec wRng wSsState (by rfl)).2.2.2 0 1 (by rfl)
  have h2 := (c5_score_steal_spec wRng wSsEqState (by rfl)).2.2.1 (by rfl)
  refine ⟨?_, ?_, ?_, h2.1, ?_⟩
  · rw [h1.2.2.2.1]; decide
  · rw [h1.2.2.2.2.1]; decide
  · rw [h1.2.2.2.2.2.2]; decide
  · rw [h2.2]; rfl

/-- C5 counterexample: with team scores [-1000, -500] the teams are distinct
lowest/highest, the claim's transfer amount floor(20% × (-500)) is -100, yet
the code transfers nothing (the amount is clamped at 0) while still recording
a snapshot with amount 0 — so the action does not transfer exactly
floor(20% of the highest score). -/
theorem c5_counterexample :
    lowest_and_highest_team_indices wSsNegState.teams = some (0, 1) ∧
    Int.fdiv (-500 : Int) 5 = -100 ∧
    (handle wRng wSsNegState (.TriggerEvent .ScoreSteal)).1.teams =
      [⟨1, "A", -1000⟩, ⟨2, "B", -500⟩] ∧
    (handle wRng wSsNegState (.TriggerEvent .ScoreSteal)).1.event_state.last_steal =
      some ⟨1, "A", 2, "B", 0⟩ :=
  ⟨rfl, by decide, rfl, rfl⟩



theorem resolve_correct_clue_find_dp (s : GameState) (cl : Nat × Nat) (t : Nat)
    (c : Clue) (tm : Team) (hg : s.get_clue cl = some c)
    (hact : s.event_state.active_event = some .DoublePoints)
    (hfind : s.teams.find? (fun x => x.id == t) = some tm) :
    ((resolve_correct_clue s cl t).1).teams.find? (fun x => x.id == t) =
      some { tm with score := tm.score + (c.points : Int) * 2 } := by
  have hcast : ((DoublePointsEvent.calculate_points c.points : Nat) : Int) =
      (c.points : Int) * 2 := by
    unfold DoublePointsEvent.calculate_points
    push_cast
    ring
  have hdp : s.event_state.is_event_active .DoublePoints = true := by
    simp [EventState.is_event_active, hact]
  simp only [resolve_correct_clue, hg, hdp, if_true]
  split <;>
    · rw [← hcast]
      exact award_points_find? s.teams t _ tm hfind

theorem resolve_correct_clue_active_dp (s : GameState) (cl : Nat × Nat) (t : Nat)
    (c : Clue) (hg : s.get_clue cl = some c)
    (hact : s.event_state.active_event = some .DoublePoints) :
    ((resolve_correct_clue s cl t).1).event_state.active_event = none := by
  have hdp : s.event_state.is_event_active .DoublePoints = true := by
    simp [EventState.is_event_active, hact]
  simp only [resolve_correct_clue, hg, hdp, if_true]
  simp [EventState.is_event_active, EventState.deactivate_event]

theorem exhaust_steal_clue_active_dp (s : GameState) (cl : Nat × Nat)
    (effs : List GameEffect)
    (hact : s.event_state.active_event = some .DoublePoints) :
    ((exhaust_steal_clue s cl effs).1).event_state.active_event =
      some .DoublePoints := by
  unfold exhaust_steal_clue
  cases s.get_clue cl with
  | none => exact hact
  | some c =>
    have hrq : s.event_state.is_event_active .ReverseQuestion = false := by
      simp [EventState.is_event_active, hact]
    simp only [hrq, Bool.false_eq_true, if_false]
    exact hact



/-- C4 (amended): while Double-Points is active, a correct answer (by owner or
stealer) awards double the clue's points and the final incorrect answer
deducts double the clue's points; the correct-answer resolutions deactivate
the event, but an incorrect steal that exhausts the queue leaves Double-Points
active even though the clue reaches the Resolved phase. -/
theorem c4_double_points_amended :
    ∀ (rng : Rand) (s : GameState) (cl : Nat × Nat) (t : Nat) (c : Clue)
      (tm : Team),
      s.event_state.active_event = some .DoublePoints →
      s.get_clue cl = some c →
      ((s.teams.find? (fun x => x.id == t) = some tm →
        (((handle rng s (.AnswerCorrect cl t)).2.isOk = true →
          (handle rng s (.AnswerCorrect cl t)).1.teams.find? (fun x => x.id == t) =
            some { tm with score := tm.score + (c.points : Int) * 2 } ∧
          (handle rng s (.AnswerCorrect cl t)).1.event_state.active_event = none) ∧
         ((handle rng s (.StealAttempt cl t true)).2.isOk = true →
          (handle rng s (.StealAttempt cl t true)).1.teams.find? (fun x => x.id == t) =
            some { tm with score := tm.score + (c.points : Int) * 2 } ∧
          (handle rng s (.StealAttempt cl t true)).1.event_state.active_event = none))) ∧
       (∀ cnt mx, s.phase = .Showing cl t cnt mx → ¬(cnt < mx) →
          s.teams.find? (fun x => x.id == t) = some tm →
          (handle rng s (.AnswerIncorrect cl t)).1.teams.find? (fun x => x.id == t) =
            some { tm with score := tm.score - (c.points : Int) * 2 }) ∧
       (∀ cur own, s.phase = .Steal cl [] cur own →
          (handle rng s (.StealAttempt cl t false)).2.isOk = true →
          (handle rng s (.StealAttempt cl t false)).1.event_state.active_event =
            some .DoublePoints)) := by
  intro rng s cl t c tm hact hg
  refine ⟨?_, ?_, ?_⟩
  · intro hfind
    constructor
    · show ((handle_answer_correct s cl t).2).isOk = true →
        (handle_answer_correct s cl t).1.teams.find? (fun x => x.id == t) =
          some { tm with score := tm.score + (c.points : Int) * 2 } ∧
        (handle_answer_correct s cl t).1.event_state.active_event = none
      unfold handle_answer_correct
      by_cases hv : validate_team_action s t (.AnswerCorrect cl t) = true
      · simp only [hv, Bool.not_true, Bool.false_eq_true, if_false]
        intro _
        exact ⟨resolve_correct_clue_find_dp s cl t c tm hg hact hfind,
          resolve_correct_clue_active_dp s cl t c hg hact⟩
      · simp only [hv, Bool.not_false, if_true]
        intro h
        exact absurd h (by simp [Except.isOk, Except.toBool])
    · show ((handle_steal_attempt s cl t true).2).isOk = true →
        (handle_steal_attempt s cl t true).1.teams.find? (fun x => x.id == t) =
          some { tm with score := tm.score + (c.points : Int) * 2 } ∧
        (handle_steal_attempt s cl t true).1.event_state.active_event = none
      unfold handle_steal_attempt
      by_cases hv : validate_team_action s t (.StealAttempt cl t true) = true
      · simp only [hv, Bool.not_true, Bool.false_eq_true, if_false]
        cases hph : s.phase with
        | Steal pcl queue cur own =>
          intro _
          exact ⟨resolve_correct_clue_find_dp s cl t c tm hg hact hfind,
            resolve_correct_clue_active_dp s cl t c hg hact⟩
        | Lobby =>
          intro h
          exact absurd h (by simp [Except.isOk, Except.toBool])
        | Selecting a =>
          intro h
          exact absurd h (by simp [Except.isOk, Except.toBool])
        | Showing a b d e =>
          intro h
          exact absurd h (by simp [Except.isOk, Except.toBool])
        | Resolved a b =>
          intro h
          exact absurd h (by simp [Except.isOk, Except.toBool])
        | Intermission =>
          intro h
          exact absurd h (by simp [Except.isOk, Except.toBool])
        | Finished =>
          intro h
          exact absurd h (by simp [Except.isOk, Except.toBool])
      · simp only [hv, Bool.not_false, if_true]
        intro h
        exact absurd h (by simp [Except.isOk, Except.toBool])
  · intro cnt mx hph hnl hfind
    have hv : validate_team_action s t (.AnswerIncorrect cl t) = true := by
      simp [validate_team_action, hfind, hph]
    show (handle_answer_incorrect rng s cl t).1.teams.find? (fun x => x.id == t) = _
    unfold handle_answer_incorrect
    simp only [hv, Bool.not_true, Bool.false_eq_true, if_false, hph]
    rw [if_neg hnl]
    unfold handle_final_attempt_incorrect
    have hdp : s.event_state.is_event_active .DoublePoints = true := by
      simp [EventState.is_event_active, hact]
    simp only [hg, hdp, if_true]
    have hcast : DoublePointsEvent.calculate_penalty c.points = (c.points : Int) * 2 := by
      unfold DoublePointsEvent.calculate_penalty
      push_cast
      ring
    rw [← hcast]
    exact deduct_points_find? s.teams t _ tm hfind
  · intro cur own hph
    show ((handle_steal_attempt s cl t false).2).isOk = true →
      (handle_steal_attempt s cl t false).1.event_state.active_event =
        some .DoublePoints
    unfold handle_steal_attempt
    by_cases hv : validate_team_action s t (.StealAttempt cl t false) = true
    · simp only [hv, Bool.not_true, Bool.false_eq_true, if_false, hph]
      intro _
      exact exhaust_steal_clue_active_dp s cl [GameEffect.FlashEffect .Incorrect] hact
    · simp only [hv, Bool.not_false, if_true]
      intro h
      exact absurd h (by simp [Except.isOk, Except.toBool])

/-- C4 counterexample: Double-Points is active while a concrete clue goes
through an exhausted steal; the clue reaches the Resolved phase solved, yet
Double-Points is still the active event afterwards. -/
theorem c4_counterexample :
    wDpSteal.event_state.active_event = some .DoublePoints ∧
    wDpResolved.phase = .Resolved (0, 0) 2 ∧
    wDpResolved.board.clueSolved (0, 0) = true ∧
    wDpResolved.event_state.active_event = some .DoublePoints :=
  ⟨rfl, rfl, rfl, rfl⟩

/-- C4 witness: with Double-Points active on a concrete 200-point clue, a
correct answer awards 400 and deactivates the event; the final incorrect
answer deducts 400; an exhausted steal leaves the event active. -/
theorem c4_witness :
    (handle wRng wDpShowing (.AnswerCorrect (0, 0) 1)).1.teams.find?
      (fun x => x.id == 1) = some ⟨1, "A", 400⟩ ∧
    (handle wRng wDpShowing (.AnswerCorrect (0, 0) 1)).1.event_state.active_event =
      none ∧
    (handle wRng wDpShowing (.AnswerIncorrect (0, 0) 1)).1.teams.find?
      (fun x => x.id == 1) = some ⟨1, "A", -400⟩ ∧
    wDpResolved.event_state.active_event = some .DoublePoints := by
  have h := c4_double_points_amended wRng wDpShowing (0, 0) 1
    ⟨1, 200, "Q1", "A1", false, false⟩ ⟨1, "A", 0⟩ rfl rfl
  have h1 := (h.1 rfl).1 (by rfl)
  have h2 := h.2.1 1 1 rfl (by omega) rfl
  have h3 := c4_double_points_amended wRng wDpSteal (0, 0) 2
    ⟨1, 200, "Q1", "A1", false, false⟩ ⟨2, "B", 0⟩ rfl rfl
  have h5 := h3.2.2 2 1 rfl (by rfl)
  refine ⟨?_, h1.2, ?_, h5⟩
  · rw [h1.1]; decide
  · rw [h2]; decide



theorem score_steal_apply_board (s : GameState) :
    (score_steal_apply s).1.board = s.board := by
  cases hl : lowest_and_highest_team_indices s.teams with
  | none => simp [score_steal_apply, hl]
  | some p =>
    rcases p with ⟨ti, vi⟩
    simp [score_steal_apply, hl]

theorem resolve_correct_clue_solved_mono (s : GameState) (cl cl' : Nat × Nat)
    (t : Nat) (h : s.board.clueSolved cl' = true) :
    ((resolve_correct_clue s cl t).1).board.clueSolved cl' = true := by
  unfold resolve_correct_clue
  cases hg : s.get_clue cl with
  | none => exact h
  | some c =>
    simp only []
    split <;> split <;>
      first
      | exact clueSolved_modifyClue_mono _ cl cl' _ (fun x hx => hx)
          (clueSolved_modifyClue_mono _ cl cl' _ (fun x _ => rfl) h)
      | exact clueSolved_modifyClue_mono _ cl cl' _ (fun x _ => rfl) h

theorem exhaust_steal_clue_solved_mono (s : GameState) (cl cl' : Nat × Nat)
    (effs : List GameEffect) (h : s.board.clueSolved cl' = true) :
    ((exhaust_steal_clue s cl effs).1).board.clueSolved cl' = true := by
  unfold exhaust_steal_clue
  cases hg : s.get_clue cl with
  | none => exact h
  | some c =>
    simp only []
    split
    · exact clueSolved_modifyClue_mono _ cl cl' _ (fun x _ => rfl)
        (clueSolved_modifyClue_mono _ cl cl' _ (fun x hx => hx) h)
    · exact clueSolved_modifyClue_mono _ cl cl' _ (fun x _ => rfl) h

theorem handle_close_clue_board (rng : Rand) (s : GameState) (cl0 : Nat × Nat)
    (nt : Nat) : ((handle_close_clue rng s cl0 nt).1).board = s.board := by
  unfold handle_close_clue
  split
  · rfl
  · dsimp only
    repeat' split
    all_goals first
      | rfl
      | rw [score_steal_apply_board]

/-- Once a clue's solved flag is set, no action of the handler ever clears it. -/
theorem clue_solved_mono :
    ∀ (rng : Rand) (s : GameState) (a : GameAction) (cl : Nat × Nat),
      s.board.clueSolved cl = true → ((handle rng s a).1).board.clueSolved cl = true := by
  intro rng s a cl h
  cases a with
  | AddTeam name =>
    show ((handle_add_team s name).1).board.clueSolved cl = true
    unfold handle_add_team
    split
    · exact h
    · dsimp only
      split <;> exact h
  | StartGame =>
    show ((handle_start_game s).1).board.clueSolved cl = true
    unfold handle_start_game
    split <;> exact h
  | SelectClue cl0 t =>
    show ((handle_select_clue s cl0 t).1).board.clueSolved cl = true
    unfold handle_select_clue
    split
    · exact h
    · split
      · cases hg : s.get_clue cl0 with
        | some c => exact clueSolved_modifyClue_mono _ cl0 cl _ (fun x hx => hx) h
        | none => exact h
      · exact h
  | AnswerCorrect cl0 t =>
    show ((handle_answer_correct s cl0 t).1).board.clueSolved cl = true
    unfold handle_answer_correct
    split
    · exact h
    · exact resolve_correct_clue_solved_mono s cl0 cl t h
  | AnswerIncorrect cl0 t =>
    show ((handle_answer_incorrect rng s cl0 t).1).board.clueSolved cl = true
    unfold handle_answer_incorrect
    split
    · exact h
    · split
      · split
        · exact h
        · show ((handle_final_attempt_incorrect rng s cl0 t _).1).board.clueSolved cl = true
          unfold handle_final_attempt_incorrect
          cases hg : s.get_clue cl0 <;> exact h
      · exact h
  | StealAttempt cl0 t b =>
    show ((handle_steal_attempt s cl0 t b).1).board.clueSolved cl = true
    unfold handle_steal_attempt
    split
    · exact h
    · split
      · split
        · exact resolve_correct_clue_solved_mono s cl0 cl t h
        · split
          · exact h
          · exact exhaust_steal_clue_solved_mono s cl0 cl _ h
      · exact h
  | CloseClue cl0 nt =>
    show ((handle_close_clue rng s cl0 nt).1).board.clueSolved cl = true
    rw [handle_close_clue_board]
    exact h
  | QueueEvent ev =>
    show ((handle_queue_event s ev).1).board.clueSolved cl = true
    unfold handle_queue_event
    split <;> exact h
  | PlayEventAnimation ev =>
    show ((handle_play_event_animation s ev).1).board.clueSolved cl = true
    unfold handle_play_event_animation
    split <;> exact h
  | TriggerEvent ev =>
    show ((handle_trigger_event s ev).1).board.clueSolved cl = true
    unfold handle_trigger_event
    split
    · exact h
    · cases ev with
      | HardReset => exact h
      | DoublePoints => exact h
      | ReverseQuestion => exact h
      | ScoreSteal =>
        have hb := score_steal_apply_board
          { s with event_state := s.event_state.activate_event .ScoreSteal }
        show ((score_steal_apply _).1).board.clueSolved cl = true
        rw [hb]
        exact h
  | AcknowledgeEvent => exact h
  | ResolveEvent => exact h
  | ReturnToConfig => exact h
  | ManualPointsAdjustment tid np =>
    show ((handle_manual_points_adjustment s tid np).1).board.clueSolved cl = true
    unfold handle_manual_points_adjustment
    cases hf : s.teams.find? (fun x => x.id == tid) <;> exact h



theorem is_clue_available_of_solved (s : GameState) (cl : Nat × Nat)
    (h : s.board.clueSolved cl = true) : s.is_clue_available cl = false := by
  unfold GameState.is_clue_available
  unfold Board.clueSolved at h
  rw [← get_clue_eq_board] at h
  cases hg : s.get_clue cl with
  | none => rfl
  | some c =>
    rw [hg] at h
    have hc : c.solved = true := h
    simp [hc]

theorem validate_select_solved (s : GameState) (cl : Nat × Nat) (t : Nat)
    (h : s.board.clueSolved cl = true) :
    validate_team_action s t (.SelectClue cl t) = false := by
  unfold validate_team_action
  split
  · rfl
  · cases hph : s.phase with
    | Selecting a =>
      have hcs : can_select_clue s cl = false := by
        unfold can_select_clue
        rw [is_clue_available_of_solved s cl h]
        simp
      dsimp only
      rw [hcs]
      simp
    | Lobby => rfl
    | Showing a b c d => rfl
    | Steal a b c d => rfl
    | Resolved a b => rfl
    | Intermission => rfl
    | Finished => rfl

theorem select_solved_fails (rng : Rand) (s : GameState) (cl : Nat × Nat)
    (t : Nat) (h : s.board.clueSolved cl = true) :
    ((handle rng s (.SelectClue cl t)).2).isOk = false := by
  show ((handle_select_clue s cl t).2).isOk = false
  unfold handle_select_clue
  rw [validate_select_solved s cl t h]
  rfl

theorem resolve_correct_clue_flags (s : GameState) (cl : Nat × Nat) (t : Nat)
    (c : Clue) (hg : s.get_clue cl = some c) :
    ((resolve_correct_clue s cl t).1).board.clueSolved cl = true ∧
    ((resolve_correct_clue s cl t).1).board.clueRevealed cl = true := by
  have hgb : s.board.getClue cl = some c := hg
  unfold resolve_correct_clue
  simp only [hg]
  have h1 : ∀ f : Clue → Clue, (modifyClue s.board cl f).getClue cl = some (f c) := by
    intro f
    rw [getClue_modifyClue_self, hgb]
    rfl
  have h2 : ∀ f g : Clue → Clue,
      (modifyClue (modifyClue s.board cl f) cl g).getClue cl = some (g (f c)) := by
    intro f g
    rw [getClue_modifyClue_self, h1 f]
    rfl
  constructor
  · split <;> split <;>
      first
      | (unfold Board.clueSolved; rw [h2]; rfl)
      | (unfold Board.clueSolved; rw [h1]; rfl)
  · split <;> split <;>
      first
      | (unfold Board.clueRevealed; rw [h2]; rfl)
      | (unfold Board.clueRevealed; rw [h1]; rfl)

theorem exhaust_steal_clue_flags (s : GameState) (cl : Nat × Nat)
    (effs : List GameEffect) (c : Clue) (hg : s.get_clue cl = some c) :
    ((exhaust_steal_clue s cl effs).1).board.clueSolved cl = true ∧
    ((exhaust_steal_clue s cl effs).1).board.clueRevealed cl =
      s.board.clueRevealed cl := by
  have hgb : s.board.getClue cl = some c := hg
  unfold exhaust_steal_clue
  simp only [hg]
  have h1 : ∀ f : Clue → Clue, (modifyClue s.board cl f).getClue cl = some (f c) := by
    intro f
    rw [getClue_modifyClue_self, hgb]
    rfl
  have h2 : ∀ f g : Clue → Clue,
      (modifyClue (modifyClue s.board cl f) cl g).getClue cl = some (g (f c)) := by
    intro f g
    rw [getClue_modifyClue_self, h1 f]
    rfl
  have hrev : s.board.clueRevealed cl = c.revealed := by
    unfold Board.clueRevealed
    rw [hgb]
    rfl
  rw [hrev]
  constructor
  · split <;>
      first
      | (unfold Board.clueSolved; rw [h2]; rfl)
      | (unfold Board.clueSolved; rw [h1]; rfl)
  · split <;>
      first
      | (unfold Board.clueRevealed; rw [h2]; rfl)
      | (unfold Board.clueRevealed; rw [h1]; rfl)



/-- C2 (amended): a correct owner answer and a correct steal set the solved
and revealed flags together; the incorrect steal that exhausts the queue sets
only the solved flag and leaves revealed as it was; the solved flag is never
cleared by any action, and once set, a select-clue on those coordinates fails
after any further sequence of actions. -/
theorem c2_solved_flags_amended :
    (∀ (rng : Rand) (s : GameState) (cl : Nat × Nat) (t : Nat) (c : Clue),
      s.get_clue cl = some c →
      ((handle rng s (.AnswerCorrect cl t)).2).isOk = true →
      ((handle rng s (.AnswerCorrect cl t)).1).board.clueSolved cl = true ∧
      ((handle rng s (.AnswerCorrect cl t)).1).board.clueRevealed cl = true) ∧
    (∀ (rng : Rand) (s : GameState) (cl : Nat × Nat) (t : Nat) (c : Clue),
      s.get_clue cl = some c →
      ((handle rng s (.StealAttempt cl t true)).2).isOk = true →
      ((handle rng s (.StealAttempt cl t true)).1).board.clueSolved cl = true ∧
      ((handle rng s (.StealAttempt cl t true)).1).board.clueRevealed cl = true) ∧
    (∀ (rng : Rand) (s : GameState) (cl : Nat × Nat) (t : Nat) (c : Clue)
      (cur own : Nat),
      s.get_clue cl = some c →
      s.phase = .Steal cl [] cur own →
      ((handle rng s (.StealAttempt cl t false)).2).isOk = true →
      ((handle rng s (.StealAttempt cl t false)).1).board.clueSolved cl = true ∧
      ((handle rng s (.StealAttempt cl t false)).1).board.clueRevealed cl =
        s.board.clueRevealed cl) ∧
    (∀ (rng : Rand) (s : GameState) (a : GameAction) (cl : Nat × Nat),
      s.board.clueSolved cl = true →
      ((handle rng s a).1).board.clueSolved cl = true) ∧
    (∀ (cl : Nat × Nat) (acts : List (Rand × GameAction)) (s : GameState),
      s.board.clueSolved cl = true →
      ∀ (rng : Rand) (t : Nat),
        ((handle rng (runActions acts s) (.SelectClue cl t)).2).isOk = false) := by
  refine ⟨?_, ?_, ?_, clue_solved_mono, ?_⟩
  · intro rng s cl t c hg
    show ((handle_answer_correct s cl t).2).isOk = true →
      ((handle_answer_correct s cl t).1).board.clueSolved cl = true ∧
      ((handle_answer_correct s cl t).1).board.clueRevealed cl = true
    unfold handle_answer_correct
    by_cases hv : validate_team_action s t (.AnswerCorrect cl t) = true
    · simp only [hv, Bool.not_true, Bool.false_eq_true, if_false]
      intro _
      exact resolve_correct_clue_flags s cl t c hg
    · simp only [hv, Bool.not_false, if_true]
      intro hfalse
      exact absurd hfalse (by simp [Except.isOk, Except.toBool])
  · intro rng s cl t c hg
    show ((handle_steal_attempt s cl t true).2).isOk = true →
      ((handle_steal_attempt s cl t true).1).board.clueSolved cl = true ∧
      ((handle_steal_attempt s cl t true).1).board.clueRevealed cl = true
    unfold handle_steal_attempt
    by_cases hv : validate_team_action s t (.StealAttempt cl t true) = true
    · simp only [hv, Bool.not_true, Bool.false_eq_true, if_false]
      cases hph : s.phase with
      | Steal pcl queue cur own =>
        intro _
        exact resolve_correct_clue_flags s cl t c hg
      | Lobby => intro hf; exact absurd hf (by simp [Except.isOk, Except.toBool])
      | Selecting a => intro hf; exact absurd hf (by simp [Except.isOk, Except.toBool])
      | Showing a b d e => intro hf; exact absurd hf (by simp [Except.isOk, Except.toBool])
      | Resolved a b => intro hf; exact absurd hf (by simp [Except.isOk, Except.toBool])
      | Intermission => intro hf; exact absurd hf (by simp [Except.isOk, Except.toBool])
      | Finished => intro hf; exact absurd hf (by simp [Except.isOk, Except.toBool])
    · simp only [hv, Bool.not_false, if_true]
      intro hfalse
      exact absurd hfalse (by simp [Except.isOk, Except.toBool])
  · intro rng s cl t c cur own hg hph
    show ((handle_steal_attempt s cl t false).2).isOk = true →
      ((handle_steal_attempt s cl t false).1).board.clueSolved cl = true ∧
      ((handle_steal_attempt s cl t false).1).board.clueRevealed cl =
        s.board.clueRevealed cl
    unfold handle_steal_attempt
    by_cases hv : validate_team_action s t (.StealAttempt cl t false) = true
    · simp only [hv, Bool.not_true, Bool.false_eq_true, if_false, hph]
      intro _
      exact exhaust_steal_clue_flags s cl [GameEffect.FlashEffect .Incorrect] c hg
    · simp only [hv, Bool.not_false, if_true]
      intro hfalse
      exact absurd hfalse (by simp [Except.isOk, Except.toBool])
  · intro cl acts
    induction acts with
    | nil =>
      intro s hs rng t
      exact select_solved_fails rng s cl t hs
    | cons p rest ih =>
      intro s hs rng t
      rcases p with ⟨r0, a0⟩
      show ((handle rng (runActions rest (handle r0 s a0).1) (.SelectClue cl t)).2).isOk
        = false
      exact ih (handle r0 s a0).1 (clue_solved_mono r0 s a0 cl hs) rng t

/-- C2 counterexample: along a concrete reachable trace, the incorrect steal
that empties the queue sets the clue's solved flag without setting its
revealed flag — the flags are not set together on that path. -/
theorem c2_counterexample :
    Reachable wSteal ∧
    wSteal.board.clueSolved (0, 0) = false ∧
    wExhausted = (handle wRng wSteal (.StealAttempt (0, 0) 2 false)).1 ∧
    wExhausted.board.clueSolved (0, 0) = true ∧
    wExhausted.board.clueRevealed (0, 0) = false := by
  refine ⟨?_, rfl, rfl, rfl, rfl⟩
  exact Reachable.step wRng (.AnswerIncorrect (0, 0) 1) wShowing
    (Reachable.step wRng (.SelectClue (0, 0) 1) wStarted
      (Reachable.step wRng .StartGame wTeam2
        (Reachable.step wRng (.AddTeam "B") wTeam1
          (Reachable.step wRng (.AddTeam "A") wLobby
            (Reachable.init wBoard)))))

/-- C2 witness: a concrete correct answer sets both flags, and the solved
clue can no longer be selected, immediately or after further actions. -/
theorem c2_witness :
    ((handle wRng wShowing (.AnswerCorrect (0, 0) 1)).1).board.clueSolved (0, 0) =
      true ∧
    ((handle wRng wShowing (.AnswerCorrect (0, 0) 1)).1).board.clueRevealed (0, 0) =
      true ∧
    ((handle wRng wExhausted (.SelectClue (0, 0) 2)).2).isOk = false ∧
    ((handle wRng (runActions [(wRng, .CloseClue (0, 0) 2)] wExhausted)
        (.SelectClue (0, 0) 2)).2).isOk = false := by
  have h1 := c2_solved_flags_amended.1 wRng wShowing (0, 0) 1
    ⟨1, 200, "Q1", "A1", false, false⟩ rfl (by rfl)
  have h2 := c2_solved_flags_amended.2.2.2.2 (0, 0) [] wExhausted rfl wRng 2
  have h3 := c2_solved_flags_amended.2.2.2.2 (0, 0) [(wRng, .CloseClue (0, 0) 2)]
    wExhausted rfl wRng 2
  exact ⟨h1.1, h1.2, h2, h3⟩



theorem resolve_correct_clue_queued (s : GameState) (cl : Nat × Nat) (t : Nat) :
    ((resolve_correct_clue s cl t).1).event_state.queued_event =
      s.event_state.queued_event := by
  unfold resolve_correct_clue
  cases hg : s.get_clue cl with
  | none => rfl
  | some c =>
    simp only []
    split <;> split <;> rfl

theorem exhaust_steal_clue_queued (s : GameState) (cl : Nat × Nat)
    (effs : List GameEffect) :
    ((exhaust_steal_clue s cl effs).1).event_state.queued_event =
      s.event_state.queued_event := by
  unfold exhaust_steal_clue
  cases hg : s.get_clue cl with
  | none => rfl
  | some c =>
    simp only []
    split <;> rfl

theorem score_steal_apply_queued (s : GameState) :
    ((score_steal_apply s).1).event_state.queued_event =
      s.event_state.queued_event := by
  cases hl : lowest_and_highest_team_indices s.teams with
  | none => simp [score_steal_apply, hl]
  | some p =>
    rcases p with ⟨ti, vi⟩
    simp [score_steal_apply, hl]

theorem should_trigger_iff (es : EventState) :
    es.should_trigger_event = true ↔
      (0 < es.questions_answered ∧ es.questions_answered % 4 = 0 ∧
       es.active_event = none ∧ es.queued_event = none) := by
  unfold EventState.should_trigger_event
  simp [Bool.and_eq_true, decide_eq_true_eq, Option.isNone_iff_eq_none, and_assoc]

/-- The handler never clears a queued event: once the queued slot is occupied,
it stays occupied after every action. -/
theorem queued_event_never_cleared :
    ∀ (rng : Rand) (s : GameState) (a : GameAction),
      (s.event_state.queued_event).isSome = true →
      (((handle rng s a).1).event_state.queued_event).isSome = true := by
  intro rng s a h
  cases a with
  | AddTeam name =>
    show (((handle_add_team s name).1).event_state.queued_event).isSome = true
    unfold handle_add_team
    split
    · exact h
    · dsimp only
      split <;> exact h
  | StartGame =>
    show (((handle_start_game s).1).event_state.queued_event).isSome = true
    unfold handle_start_game
    split <;> exact h
  | SelectClue cl0 t =>
    show (((handle_select_clue s cl0 t).1).event_state.queued_event).isSome = true
    unfold handle_select_clue
    split
    · exact h
    · split
      · cases hg : s.get_clue cl0 <;> exact h
      · exact h
  | AnswerCorrect cl0 t =>
    show (((handle_answer_correct s cl0 t).1).event_state.queued_event).isSome = true
    unfold handle_answer_correct
    split
    · exact h
    · show (((resolve_correct_clue s cl0 t).1).event_state.queued_event).isSome = true
      rw [resolve_correct_clue_queued]
      exact h
  | AnswerIncorrect cl0 t =>
    show (((handle_answer_incorrect rng s cl0 t).1).event_state.queued_event).isSome
      = true
    unfold handle_answer_incorrect
    split
    · exact h
    · split
      · split
        · exact h
        · show (((handle_final_attempt_incorrect rng s cl0 t
            _).1).event_state.queued_event).isSome = true
          unfold handle_final_attempt_incorrect
          cases hg : s.get_clue cl0 <;> exact h
      · exact h
  | StealAttempt cl0 t b =>
    show (((handle_steal_attempt s cl0 t b).1).event_state.queued_event).isSome = true
    unfold handle_steal_attempt
    split
    · exact h
    · split
      · split
        · show (((resolve_correct_clue s cl0 t).1).event_state.queued_event).isSome
            = true
          rw [resolve_correct_clue_queued]
          exact h
        · split
          · exact h
          · show (((exhaust_steal_clue s cl0 _).1).event_state.queued_event).isSome
              = true
            rw [exhaust_steal_clue_queued]
            exact h
      · exact h
  | CloseClue cl0 nt =>
    show (((handle_close_clue rng s cl0 nt).1).event_state.queued_event).isSome = true
    unfold handle_close_clue
    split
    · exact h
    · dsimp only
      have hqn : (s.event_state.queued_event).isNone = false := by
        cases hq : s.event_state.queued_event
        · rw [hq] at h
          exact absurd h (by simp)
        · rfl
      have hstf : (s.event_state.increment_question_count).should_trigger_event
          = false := by
        unfold EventState.should_trigger_event EventState.increment_question_count
        simp [hqn]
      rw [hstf]
      simp only [Bool.false_eq_true, if_false]
      exact h
  | QueueEvent ev =>
    show (((handle_queue_event s ev).1).event_state.queued_event).isSome = true
    unfold handle_queue_event
    dsimp only
    split <;> rfl
  | PlayEventAnimation ev =>
    show (((handle_play_event_animation s ev).1).event_state.queued_event).isSome
      = true
    unfold handle_play_event_animation
    dsimp only
    split <;> exact h
  | TriggerEvent ev =>
    show (((handle_trigger_event s ev).1).event_state.queued_event).isSome = true
    unfold handle_trigger_event
    split
    · exact h
    · cases ev with
      | HardReset => exact h
      | DoublePoints => exact h
      | ReverseQuestion => exact h
      | ScoreSteal =>
        show (((score_steal_apply _).1).event_state.queued_event).isSome = true
        rw [score_steal_apply_queued]
        exact h
  | AcknowledgeEvent => exact h
  | ResolveEvent => exact h
  | ReturnToConfig => exact h
  | ManualPointsAdjustment tid np =>
    show (((handle_manual_points_adjustment s tid np).1).event_state.queued_event).isSome
      = true
    unfold handle_manual_points_adjustment
    cases hf : s.teams.find? (fun x => x.id == tid) <;> exact h



/-- C9 (amended): a clue-closing action populates the queued slot exactly when
the incremented questions-answered counter is positive, divisible by four,
and no event is active or queued; the play-animation signal sets the
animation flag and promotes the signalled event to active (appending it to
history) only for Double-Points and Reverse-Question — Hard-Reset and
Score-Steal are never promoted; and no action of the handler ever clears an
occupied queued slot (the presentation layer consumes it). -/
theorem c9_event_lifecycle_amended :
    (∀ (rng : Rand) (s : GameState) (cl : Nat × Nat) (nt : Nat),
      ((handle rng s (.CloseClue cl nt)).2).isOk = true →
      ((0 < s.event_state.questions_answered + 1 ∧
        (s.event_state.questions_answered + 1) % 4 = 0 ∧
        s.event_state.active_event = none ∧ s.event_state.queued_event = none) →
        (handle rng s (.CloseClue cl nt)).1.event_state.queued_event =
          some rng.pickEvent) ∧
      (¬(0 < s.event_state.questions_answered + 1 ∧
        (s.event_state.questions_answered + 1) % 4 = 0 ∧
        s.event_state.active_event = none ∧ s.event_state.queued_event = none) →
        (handle rng s (.CloseClue cl nt)).1.event_state.queued_event =
          s.event_state.queued_event)) ∧
    (∀ (rng : Rand) (s : GameState) (e : GameEvent),
      ((handle rng s (.PlayEventAnimation e)).2).isOk = true ∧
      (handle rng s (.PlayEventAnimation e)).1.event_state.animation_playing = true ∧
      ((e = .DoublePoints ∨ e = .ReverseQuestion) →
        (handle rng s (.PlayEventAnimation e)).1.event_state.active_event = some e ∧
        (handle rng s (.PlayEventAnimation e)).1.event_state.event_history =
          s.event_state.event_history ++ [e]) ∧
      ((e = .HardReset ∨ e = .ScoreSteal) →
        (handle rng s (.PlayEventAnimation e)).1.event_state.active_event =
          s.event_state.active_event ∧
        (handle rng s (.PlayEventAnimation e)).1.event_state.event_history =
          s.event_state.event_history)) ∧
    (∀ (rng : Rand) (s : GameState) (a : GameAction),
      (s.event_state.queued_event).isSome = true →
      (((handle rng s a).1).event_state.queued_event).isSome = true) := by
  refine ⟨?_, ?_, queued_event_never_cleared⟩
  · intro rng s cl nt
    show ((handle_close_clue rng s cl nt).2).isOk = true →
      (_ → (handle_close_clue rng s cl nt).1.event_state.queued_event =
        some rng.pickEvent) ∧
      (_ → (handle_close_clue rng s cl nt).1.event_state.queued_event =
        s.event_state.queued_event)
    unfold handle_close_clue
    by_cases hv : is_action_valid s (.CloseClue cl nt) = true
    · simp only [hv, Bool.not_true, Bool.false_eq_true, if_false]
      intro _
      have hbr := should_trigger_iff (s.event_state.increment_question_count)
      constructor
      · intro hcond
        have hst : (s.event_state.increment_question_count).should_trigger_event
            = true := hbr.mpr hcond
        rw [if_pos hst]
        simp only [EventConfig.get_random_event, EventConfig.default,
          List.isEmpty_cons, Bool.false_eq_true, if_false]
        split
        · rfl
        · split
          · show ((score_steal_apply _).1).event_state.queued_event = some rng.pickEvent
            rw [score_steal_apply_queued]
            rfl
          · rfl
      · intro hncond
        have hst : (s.event_state.increment_question_count).should_trigger_event
            = false := by
          cases hx : (s.event_state.increment_question_count).should_trigger_event
          · rfl
          · exact absurd (hbr.mp hx) hncond
        rw [hst]
        simp only [Bool.false_eq_true, if_false]
        rfl
    · simp only [hv, Bool.not_false, if_true]
      intro hfalse
      exact absurd hfalse (by simp [Except.isOk, Except.toBool])
  · intro rng s e
    cases e with
    | DoublePoints =>
      refine ⟨rfl, rfl, fun _ => ⟨rfl, rfl⟩, fun hc => ?_⟩
      rcases hc with hc | hc <;> exact absurd hc (by decide)
    | ReverseQuestion =>
      refine ⟨rfl, rfl, fun _ => ⟨rfl, rfl⟩, fun hc => ?_⟩
      rcases hc with hc | hc <;> exact absurd hc (by decide)
    | HardReset =>
      refine ⟨rfl, rfl, fun hc => ?_, fun _ => ⟨rfl, rfl⟩⟩
      rcases hc with hc | hc <;> exact absurd hc (by decide)
    | ScoreSteal =>
      refine ⟨rfl, rfl, fun hc => ?_, fun _ => ⟨rfl, rfl⟩⟩
      rcases hc with hc | hc <;> exact absurd hc (by decide)

/-- C9 counterexample: with Hard-Reset sitting in the queued slot, the
play-animation signal does not promote it to active, and resolving the event
does not clear the queued slot — contradicting both the promotion and
clearing parts of the claim. -/
theorem c9_counterexample :
    wQueuedHR.event_state.queued_event = some .HardReset ∧
    wPlayedHR.event_state.animation_playing = true ∧
    wPlayedHR.event_state.active_event = none ∧
    wPlayedHR.event_state.queued_event = some .HardReset ∧
    wResolvedHR.event_state.queued_event = some .HardReset :=
  ⟨rfl, rfl, rfl, rfl, rfl⟩

/-- C9 witness: a concrete clue-closing action at counter 3 queues an event;
playing the animation for Double-Points activates it and sets the animation
flag; a queued slot stays occupied across a further action. -/
theorem c9_witness :
    wClosed.event_state.queued_event = some .DoublePoints ∧
    (handle wRng wStarted (.PlayEventAnimation .DoublePoints)).1.event_state.active_event
      = some .DoublePoints ∧
    (handle wRng wStarted
      (.PlayEventAnimation .DoublePoints)).1.event_state.animation_playing = true ∧
    (((handle wRng wQueuedHR .ResolveEvent).1).event_state.queued_event).isSome
      = true := by
  have h1 := (c9_event_lifecycle_amended.1 wRng wCloseReady (0, 0) 2 (by rfl)).1
    ⟨by decide, by decide, rfl, rfl⟩
  have h2 := c9_event_lifecycle_amended.2.1 wRng wStarted .DoublePoints
  have h3 := c9_event_lifecycle_amended.2.2 wRng wQueuedHR .ResolveEvent rfl
  exact ⟨h1, (h2.2.2.1 (Or.inl rfl)).1, h2.2.1, h3⟩



theorem calculate_max_attempts_bounds (p : Nat) :
    1 ≤ calculate_max_attempts p ∧
    (calculate_max_attempts p = 1 ∨ calculate_max_attempts p = 2) := by
  unfold calculate_max_attempts
  split
  · exact ⟨by omega, Or.inr rfl⟩
  · exact ⟨by omega, Or.inl rfl⟩

theorem handle_final_attempt_incorrect_phase (rng : Rand) (s : GameState)
    (cl : Nat × Nat) (t : Nat) (effs : List GameEffect) :
    ∃ q cur, (handle_final_attempt_incorrect rng s cl t effs).1.phase =
      .Steal cl q cur t := by
  unfold handle_final_attempt_incorrect
  cases hg : s.get_clue cl <;> exact ⟨_, _, rfl⟩

theorem score_steal_apply_phase (s : GameState) :
    (score_steal_apply s).1.phase = s.phase := by
  cases hl : lowest_and_highest_team_indices s.teams with
  | none => simp [score_steal_apply, hl]
  | some p =>
    rcases p with ⟨ti, vi⟩
    simp [score_steal_apply, hl]

/-- One step of the handler preserves the Showing-phase attempt-counter
invariant. -/
theorem showing_invariant_step (rng : Rand) (s : GameState) (a : GameAction)
    (hInv : ∀ cl own cnt mx, s.phase = .Showing cl own cnt mx →
      1 ≤ cnt ∧ cnt ≤ mx ∧ (mx = 1 ∨ mx = 2)) :
    ∀ cl own cnt mx, (handle rng s a).1.phase = .Showing cl own cnt mx →
      1 ≤ cnt ∧ cnt ≤ mx ∧ (mx = 1 ∨ mx = 2) := by
  intro cl' own' cnt' mx'
  cases a with
  | AddTeam name =>
    show (handle_add_team s name).1.phase = _ → _
    unfold handle_add_team
    split
    · exact hInv _ _ _ _
    · dsimp only
      split <;> exact hInv _ _ _ _
  | StartGame =>
    show (handle_start_game s).1.phase = _ → _
    unfold handle_start_game
    split
    · exact hInv _ _ _ _
    · intro hph'
      exact absurd hph' (by simp)
  | SelectClue cl0 t =>
    show (handle_select_clue s cl0 t).1.phase = _ → _
    unfold handle_select_clue
    split
    · exact hInv _ _ _ _
    · intro hph'
      have hinj := PlayPhase.Showing.injEq .. |>.mp hph'
      obtain ⟨h1, h2, h3, h4⟩ := hinj
      subst h3
      subst h4
      exact ⟨le_refl 1, (calculate_max_attempts_bounds _).1,
        (calculate_max_attempts_bounds _).2⟩
  | AnswerCorrect cl0 t =>
    show (handle_answer_correct s cl0 t).1.phase = _ → _
    unfold handle_answer_correct
    split
    · exact hInv _ _ _ _
    · intro hph'
      exact absurd hph' (by simp)
  | AnswerIncorrect cl0 t =>
    show (handle_answer_incorrect rng s cl0 t).1.phase = _ → _
    unfold handle_answer_incorrect
    split
    · exact hInv _ _ _ _
    · split
      · rename_i pa pb cnt mx heq
        split
        · rename_i hlt
          intro hph'
          have hinj := PlayPhase.Showing.injEq .. |>.mp hph'
          obtain ⟨h1, h2, h3, h4⟩ := hinj
          subst h3
          subst h4
          have hbase := hInv _ _ _ _ heq
          exact ⟨by omega, by omega, hbase.2.2⟩
        · intro hph'
          obtain ⟨q, cur, hsp⟩ :=
            handle_final_attempt_incorrect_phase rng s cl0 t
              [GameEffect.FlashEffect .Incorrect]
          rw [hsp] at hph'
          exact absurd hph' (by simp)
      · exact hInv _ _ _ _
  | StealAttempt cl0 t b =>
    show (handle_steal_attempt s cl0 t b).1.phase = _ → _
    unfold handle_steal_attempt
    split
    · exact hInv _ _ _ _
    · split
      · split
        · intro hph'
          exact absurd hph' (by simp)
        · split
          · intro hph'
            exact absurd hph' (by simp)
          · intro hph'
            exact absurd hph' (by simp)
      · exact hInv _ _ _ _
  | CloseClue cl0 nt =>
    show (handle_close_clue rng s cl0 nt).1.phase = _ → _
    unfold handle_close_clue
    split
    · exact hInv _ _ _ _
    · intro hph'
      exact absurd hph' (by simp)
  | QueueEvent ev =>
    show (handle_queue_event s ev).1.phase = _ → _
    unfold handle_queue_event
    dsimp only
    split <;> exact hInv _ _ _ _
  | PlayEventAnimation ev =>
    show (handle_play_event_animation s ev).1.phase = _ → _
    unfold handle_play_event_animation
    dsimp only
    split <;> exact hInv _ _ _ _
  | TriggerEvent ev =>
    show (handle_trigger_event s ev).1.phase = _ → _
    unfold handle_trigger_event
    split
    · exact hInv _ _ _ _
    · cases ev with
      | HardReset => exact hInv _ _ _ _
      | DoublePoints => exact hInv _ _ _ _
      | ReverseQuestion => exact hInv _ _ _ _
      | ScoreSteal =>
        intro hph'
        have hsp := score_steal_apply_phase
          { s with event_state := s.event_state.activate_event .ScoreSteal }
        have hph2 : ((score_steal_apply
            { s with event_state := s.event_state.activate_event .ScoreSteal }).1).phase
            = .Showing cl' own' cnt' mx' := hph'
        rw [hsp] at hph2
        exact hInv _ _ _ _ hph2
  | AcknowledgeEvent => exact hInv _ _ _ _
  | ResolveEvent => exact hInv _ _ _ _
  | ReturnToConfig => exact hInv _ _ _ _
  | ManualPointsAdjustment tid np =>
    show (handle_manual_points_adjustment s tid np).1.phase = _ → _
    unfold handle_manual_points_adjustment
    cases hf : s.teams.find? (fun x => x.id == tid) <;> exact hInv _ _ _ _

/-- C10: in every game state reachable through the action handler, a Showing
phase carries 1 <= attempt_count <= max_attempts with max_attempts either 1
or 2. -/
theorem c10_showing_invariant :
    ∀ s : GameState, Reachable s →
      ∀ cl own cnt mx, s.phase = .Showing cl own cnt mx →
        1 ≤ cnt ∧ cnt ≤ mx ∧ (mx = 1 ∨ mx = 2) := by
  intro s hreach
  induction hreach with
  | init b =>
    intro cl own cnt mx hph
    exact absurd hph (by simp [GameState.new])
  | step rng a s0 hr ih =>
    exact showing_invariant_step rng s0 a ih

/-- C10 witness: the concrete reachable Showing state after selecting the
800-point clue and answering incorrectly once satisfies the invariant with
counter 2 and maximum 2. -/
theorem c10_witness :
    Reachable wShowing800b ∧ wShowing800b.phase = .Showing (0, 1) 1 2 2 ∧
    (1 ≤ 2 ∧ 2 ≤ 2 ∧ ((2 : Nat) = 1 ∨ (2 : Nat) = 2)) := by
  have hr : Reachable wShowing800b :=
    Reachable.step wRng (.AnswerIncorrect (0, 1) 1) wShowing800
      (Reachable.step wRng (.SelectClue (0, 1) 1) wStarted
        (Reachable.step wRng .StartGame wTeam2
          (Reachable.step wRng (.AddTeam "B") wTeam1
            (Reachable.step wRng (.AddTeam "A") wLobby
              (Reachable.init wBoard)))))
  exact ⟨hr, rfl, c10_showing_invariant wShowing800b hr (0, 1) 1 2 2 rfl⟩


end Jeopardy
